import Mathlib

/-!
# Gamebuino-ArduboyTones: the tone sequencer

A shallow embedding of `src/Gamebuino-ArduboyTones.cpp`.

* The file-scope variables of the translation unit are the fields of `State`.
* Sixteen-bit words live in a word-addressed memory `mem`; `toneSequence` is
  the address of the static inline buffer, a pointer is an address.
* What the external collaborators answer during one call (the
  `outputEnabled()` callback, `gb.sound.play`, `gb.getTimePerFrame()`) is a
  `Host` record passed to that call.
* `22050 / freq` is a checked division.  With a zero divisor the run stops at
  that statement: the stores that follow it in the source do not happen, and
  the state is marked `halted`.
-/

set_option linter.dupNamespace false

namespace ArduboyTones

/-! ## Constants of the header -/

/-- Modelled from the spec: the header `Gamebuino-ArduboyTones.h` is not among
the sources.  END marker of a sequence, a reserved value outside the range of
real frequencies. -/
def TONES_END : Nat := 0x8000

/-- Modelled from the spec: REPEAT marker of a sequence (header not among the
sources). -/
def TONES_REPEAT : Nat := 0x8001

/-- Modelled from the spec: the single highest bit of a 16-bit tone word is the
high-volume flag (header not among the sources). -/
def TONE_HIGH_VOLUME : Nat := 0x8000

/-- Modelled from the spec: capacity of the inline buffer is three tone pairs
plus the terminator (header not among the sources). -/
def MAX_TONES : Nat := 3

/-- Modelled from the spec: the tone-controlled volume mode, the default
(header not among the sources; the three modes are numbered 0, 1, 2). -/
def VOLUME_IN_TONE : Nat := 0

/-- Modelled from the spec: the force-normal volume mode. -/
def VOLUME_ALWAYS_NORMAL : Nat := 1

/-- Modelled from the spec: the force-high volume mode. -/
def VOLUME_ALWAYS_HIGH : Nat := 2

/-! ## Data model -/

/-- Kind of a host sound channel; `nextTone` writes `pattern`. -/
inductive Sound_Channel_Type where
  | raw
  | pattern
  | square
deriving DecidableEq, Repr

/-- The fields of the host's `Sound_Channel` that the sequencer writes.
`total` is the repeat count; the sequencer only ever stores `some` quotient
in it. -/
structure Sound_Channel where
  type : Sound_Channel_Type
  total : Option Nat
  index : Nat
  amplitude : Nat
  use : Bool
deriving DecidableEq, Repr

/-- Answers of the external collaborators during one call into the sequencer:
`outputEnabled` is what the `outputEnabled()` callback returns, `play` is the
channel that `gb.sound.play` hands to a freshly registered handler (`none`
when no channel is free), `timePerFrame` is what `gb.getTimePerFrame()`
returns. -/
structure Host where
  outputEnabled : Bool
  play : Option Sound_Channel
  timePerFrame : Int

/-- The file-scope variables of the translation unit.  `mem` is the
word-addressed memory holding 16-bit words, `toneSequence` the address of the
static buffer `toneSequence[MAX_TONES * 2 + 1]` (no operation changes it),
`gb_handler` tells whether a handler object is allocated, `gb_channel` is the
channel pointed to by the global pointer (`none` for the null pointer),
`gb_tone_duration` the `int32_t` remaining-duration counter, kept as an exact
integer: an advance loads it with a value below 65536 and a tick subtracts one
frame time, so the runs considered stay inside the `int32_t` range.
`halted` is not a variable of the program: it records that the run has
stopped at a division by zero (source line 223), and no operation reads it. -/
structure State where
  tonesPlaying : Bool
  toneSilent : Bool
  toneHighVol : Bool
  forceHighVol : Bool
  forceNormVol : Bool
  tonesStart : Nat
  tonesIndex : Nat
  toneSequence : Nat
  mem : Nat → Nat
  gb_channel : Option Sound_Channel
  gb_handler : Bool
  gb_tone_duration : Int
  halted : Bool

/-- Store of a `uint16_t` value at a word address. -/
def store (m : Nat → Nat) (a v : Nat) : Nat → Nat :=
  fun x => if x = a then v % 65536 else m x

/-- The integer division of the source; with a zero divisor it has no result,
which is `none` here. -/
def checkedDiv (n d : Nat) : Option Nat :=
  if d = 0 then none else some (n / d)

/-! ## Operations -/

/-- The constructor `ArduboyTones::ArduboyTones`: sets the last slot of the
inline buffer to the END marker (the callback it stores is the `Host`
answer `outputEnabled`). -/
def ArduboyTones (s : State) : State :=
  { s with mem := store s.mem (s.toneSequence + MAX_TONES * 2) TONES_END }

/-- The destructor `~GB_Sound_Handler`, run when the handler is deleted. -/
def GB_Sound_Handler_destroy (s : State) : State :=
  { s with gb_channel := none, gb_handler := false }

/-- The function `ArduboyTones::noTone`. -/
def noTone (s : State) : State :=
  let s1 : State :=
    match s.gb_channel with
    | some ch => { s with gb_channel := some { ch with use := false } }
    | none => s
  { s1 with tonesPlaying := false }

/-- The function `ArduboyTones::volumeMode`; `mode` is a `uint8_t`. -/
def volumeMode (mode : Nat) (s : State) : State :=
  let s1 : State := { s with forceNormVol := false, forceHighVol := false }
  if mode % 256 = VOLUME_ALWAYS_NORMAL then { s1 with forceNormVol := true }
  else if mode % 256 = VOLUME_ALWAYS_HIGH then { s1 with forceHighVol := true }
  else s1

/-- The function `ArduboyTones::playing`. -/
def playing (s : State) : Bool := s.tonesPlaying

/-- The function `ArduboyTones::getNext`: `*tonesIndex++`. -/
def getNext (s : State) : Nat × State :=
  (s.mem s.tonesIndex % 65536, { s with tonesIndex := s.tonesIndex + 1 })

/-- The frequency word with the volume indicator stripped:
`freq &= ~TONE_HIGH_VOLUME` on a `uint16_t`. -/
def stripVolume (freq : Nat) : Nat := freq &&& (0xFFFF ^^^ TONE_HIGH_VOLUME)

/-- The test `freq & TONE_HIGH_VOLUME`. -/
def hasHighVolume (freq : Nat) : Bool := freq &&& TONE_HIGH_VOLUME != 0

/-- The body of `ArduboyTones::nextTone` from the volume decision on (source
lines 185 to 236), for the frequency word `freq0` read before it.  With a
channel at hand the channel type is stored and `22050 / freq` is evaluated;
when the stripped frequency is 0 the run stops at that division, before the
stores of the repeat count, index, amplitude, enable flag and counter. -/
def programTone (h : Host) (freq0 : Nat) (s : State) : State :=
  let s1 : State := { s with toneHighVol := true }
  let s2 : State :=
    { s1 with
      toneHighVol :=
        if (hasHighVolume freq0 || s1.forceHighVol) && !s1.forceNormVol then true else false }
  let freq := stripVolume freq0
  let s3 : State := { s2 with toneSilent := if freq = 0 then true else false }
  let s4 : State := { s3 with toneSilent := if !h.outputEnabled then true else s3.toneSilent }
  let r := getNext s4
  let dur := r.1
  let s5 : State :=
    match r.2.gb_channel with
    | none => { r.2 with gb_handler := true, gb_channel := h.play }
    | some _ => r.2
  match s5.gb_channel with
  | none => { s5 with gb_handler := false }
  | some ch =>
    let s6 : State :=
      { s5 with gb_channel := some { ch with type := Sound_Channel_Type.pattern } }
    match checkedDiv 22050 freq with
    | none => { s6 with halted := true }
    | some quotient =>
      { s6 with
        gb_channel := some
          { ch with
            type := Sound_Channel_Type.pattern
            total := some quotient
            index := 0
            amplitude := if s5.toneSilent then 0 else if s5.toneHighVol then 0x30 else 12
            use := true }
        gb_tone_duration := (dur : Int) }

/-- The function `ArduboyTones::nextTone`. -/
def nextTone (h : Host) (s : State) : State :=
  let r := getNext s
  if r.1 = TONES_END then noTone r.2
  else
    let s1 : State := { r.2 with tonesPlaying := true }
    if r.1 = TONES_REPEAT then
      let r2 := getNext { s1 with tonesIndex := s1.tonesStart }
      programTone h r2.1 r2.2
    else programTone h r.1 s1

/-- The one-tone overload of `ArduboyTones::tone`. -/
def tone (freq dur : Nat) (h : Host) (s : State) : State :=
  let s1 : State := { s with tonesStart := s.toneSequence, tonesIndex := s.toneSequence }
  let m1 := store s1.mem (s1.toneSequence + 0) freq
  let m2 := store m1 (s1.toneSequence + 1) dur
  let m3 := store m2 (s1.toneSequence + 2) TONES_END
  nextTone h { s1 with mem := m3 }

/-- The two-tone overload of `ArduboyTones::tone`. -/
def tone2 (freq1 dur1 freq2 dur2 : Nat) (h : Host) (s : State) : State :=
  let s1 : State := { s with tonesStart := s.toneSequence, tonesIndex := s.toneSequence }
  let m1 := store s1.mem (s1.toneSequence + 0) freq1
  let m2 := store m1 (s1.toneSequence + 1) dur1
  let m3 := store m2 (s1.toneSequence + 2) freq2
  let m4 := store m3 (s1.toneSequence + 3) dur2
  let m5 := store m4 (s1.toneSequence + 4) TONES_END
  nextTone h { s1 with mem := m5 }

/-- The three-tone overload of `ArduboyTones::tone`; it writes no end marker. -/
def tone3 (freq1 dur1 freq2 dur2 freq3 dur3 : Nat) (h : Host) (s : State) : State :=
  let s1 : State := { s with tonesStart := s.toneSequence, tonesIndex := s.toneSequence }
  let m1 := store s1.mem (s1.toneSequence + 0) freq1
  let m2 := store m1 (s1.toneSequence + 1) dur1
  let m3 := store m2 (s1.toneSequence + 2) freq2
  let m4 := store m3 (s1.toneSequence + 3) dur2
  let m5 := store m4 (s1.toneSequence + 4) freq3
  let m6 := store m5 (s1.toneSequence + 5) dur3
  nextTone h { s1 with mem := m6 }

/-- The function `ArduboyTones::tones`: play the sequence at address `p`. -/
def tones (p : Nat) (h : Host) (s : State) : State :=
  nextTone h { s with tonesStart := p, tonesIndex := p }

/-- The function `ArduboyTones::tonesInRAM`. -/
def tonesInRAM (p : Nat) (h : Host) (s : State) : State :=
  nextTone h { s with tonesStart := p, tonesIndex := p }

/-- The frame tick `gb_updateTones`. -/
def gb_updateTones (h : Host) (s : State) : State :=
  match s.gb_channel with
  | none => noTone s
  | some _ =>
    let s1 : State := { s with gb_tone_duration := s.gb_tone_duration - h.timePerFrame }
    if s1.gb_tone_duration ≤ 0 then nextTone h s1 else s1

/-- A run of frame ticks, one `Host` answer per tick, oldest first. -/
def runTicks : List Host → State → State
  | [], s => s
  | h :: hs, s => runTicks hs (gb_updateTones h s)

/-- The ticks of `hs`, applied to a counter `c`, all leave it positive. -/
def NoExpiry : Int → List Host → Prop
  | _, [] => True
  | c, h :: hs => 0 < c - h.timePerFrame ∧ NoExpiry (c - h.timePerFrame) hs

/-- Total elapsed time of a run of ticks. -/
def elapsed (hs : List Host) : Int := (hs.map (fun h => h.timePerFrame)).sum

/-- The memory `m` holds the words `ws` from address `p` on. -/
def SeqAt (m : Nat → Nat) : Nat → List Nat → Prop
  | _, [] => True
  | p, w :: ws => m p = w ∧ SeqAt m (p + 1) ws

/-- A real, non-zero frequency word: a 16-bit word that is neither marker and
whose value with the high-volume bit cleared is positive. -/
def RealTone (f : Nat) : Prop :=
  f < 65536 ∧ f ≠ TONES_END ∧ f ≠ TONES_REPEAT ∧ 0 < stripVolume f

/-- The sequencer loops over the sequence `[f1, d1, REPEAT]` stored at `p`:
the cursor stands two slots after the start, the sequencer is playing and the
held channel is enabled and programmed for `f1`. -/
def Looping (p f1 d1 : Nat) (t : State) : Prop :=
  t.tonesStart = p ∧ t.tonesIndex = p + 2 ∧ SeqAt t.mem p [f1, d1, TONES_REPEAT] ∧
  t.tonesPlaying = true ∧
  ∃ c, t.gb_channel = some c ∧ c.use = true ∧ c.total = some (22050 / stripVolume f1)

/-- The state of static storage before the constructor runs: everything zero,
the inline buffer at address `base`. -/
def startup (base : Nat) : State :=
  { tonesPlaying := false, toneSilent := false, toneHighVol := false,
    forceHighVol := false, forceNormVol := false, tonesStart := 0, tonesIndex := 0,
    toneSequence := base, mem := fun _ => 0, gb_channel := none, gb_handler := false,
    gb_tone_duration := 0, halted := false }

/-- A host channel as handed out on acquisition, not in use. -/
def idleChannel : Sound_Channel :=
  { type := Sound_Channel_Type.raw, total := some 0, index := 0, amplitude := 0, use := false }

/-- The volume decision of `nextTone` for the tone word `f`. -/
def highVolOf (s : State) (f : Nat) : Bool :=
  (hasHighVolume f || s.forceHighVol) && !s.forceNormVol

/-- The silence decision of `nextTone` for the tone word `f`. -/
def silentOf (h : Host) (f : Nat) : Bool :=
  decide (stripVolume f = 0) || !h.outputEnabled

/-- The channel as `nextTone` programs it for a tone word `f` whose stripped
frequency is positive. -/
def programmed (h : Host) (s : State) (ch : Sound_Channel) (f : Nat) : Sound_Channel :=
  { ch with
    type := Sound_Channel_Type.pattern
    total := checkedDiv 22050 (stripVolume f)
    index := 0
    amplitude := if silentOf h f then 0 else if highVolOf s f then 0x30 else 12
    use := true }

/-- A frame tick answer: output enabled, no channel on offer, `e` time units
elapsed. -/
def frame (e : Int) : Host := { outputEnabled := true, play := none, timePerFrame := e }

/-- A call answer outside the frame tick: output enabled, the host hands out
an idle channel on request. -/
def hostReady : Host := { outputEnabled := true, play := some idleChannel, timePerFrame := 16 }

/-- A call answer when the host has no free channel. -/
def hostBusy : Host := { outputEnabled := true, play := none, timePerFrame := 16 }

/-- The constructed sequencer, inline buffer at address 0, nothing played yet. -/
def fresh : State := ArduboyTones (startup 0)

/-- The constructed sequencer holding a channel, with the words `ws` stored
from address 100 on (caller-owned storage). -/
def heldWith (ws : List Nat) : State :=
  { fresh with
    mem := fun a => if 100 ≤ a then ws.getD (a - 100) 0 else fresh.mem a
    gb_channel := some idleChannel
    gb_handler := true }

/-- The static storage at program start, before the constructor runs: not
playing, both volume overrides off, no channel and no handler, the run not
stopped.  The words in memory and the address of the inline buffer are
arbitrary. -/
def Initial (s : State) : Prop :=
  s.tonesPlaying = false ∧ s.forceHighVol = false ∧ s.forceNormVol = false ∧
  s.gb_channel = none ∧ s.gb_handler = false ∧ s.halted = false

/-- The states the program can be in between two operations: the constructor
runs on the initial storage, then the public operations, the frame tick and
the deletion of the handler by the host follow in any order, each with any
arguments and any answers of the host.  A call that stops the run at the
division by zero does not return, so it leads to no further state. -/
inductive Reachable : State → Prop where
  | construct (s : State) : Initial s → Reachable (ArduboyTones s)
  | byTone (f d : Nat) (h : Host) (s : State) :
      Reachable s → (tone f d h s).halted = false → Reachable (tone f d h s)
  | byTone2 (f1 d1 f2 d2 : Nat) (h : Host) (s : State) :
      Reachable s → (tone2 f1 d1 f2 d2 h s).halted = false →
      Reachable (tone2 f1 d1 f2 d2 h s)
  | byTone3 (f1 d1 f2 d2 f3 d3 : Nat) (h : Host) (s : State) :
      Reachable s → (tone3 f1 d1 f2 d2 f3 d3 h s).halted = false →
      Reachable (tone3 f1 d1 f2 d2 f3 d3 h s)
  | byTones (p : Nat) (h : Host) (s : State) :
      Reachable s → (tones p h s).halted = false → Reachable (tones p h s)
  | byTonesInRAM (p : Nat) (h : Host) (s : State) :
      Reachable s → (tonesInRAM p h s).halted = false → Reachable (tonesInRAM p h s)
  | byNoTone (s : State) : Reachable s → Reachable (noTone s)
  | byVolumeMode (m : Nat) (s : State) : Reachable s → Reachable (volumeMode m s)
  | byTick (h : Host) (s : State) :
      Reachable s → (gb_updateTones h s).halted = false → Reachable (gb_updateTones h s)
  | byDestroy (s : State) : Reachable s → Reachable (GB_Sound_Handler_destroy s)

/-- A held channel's enable flag equals the playing flag. -/
def EnableMatchesPlaying (s : State) : Prop :=
  ∀ c, s.gb_channel = some c → c.use = s.tonesPlaying

/-- The three volume modes of the spec. -/
inductive VolumeMode where
  | toneControlled
  | forceNormal
  | forceHigh
deriving DecidableEq, Repr

/-- The volume rule in the spec's words: the forced modes override the tone,
and in the tone-controlled mode the tone's embedded high-volume bit decides.
The result is true for high volume. -/
def volumeBySpec (mode : VolumeMode) (bit : Bool) : Bool :=
  match mode with
  | VolumeMode.forceNormal => false
  | VolumeMode.forceHigh => true
  | VolumeMode.toneControlled => bit

/-- The volume mode that the two override flags stand for; both flags set
stand for no mode. -/
def modeOf (s : State) : Option VolumeMode :=
  match s.forceNormVol, s.forceHighVol with
  | false, false => some VolumeMode.toneControlled
  | true, false => some VolumeMode.forceNormal
  | false, true => some VolumeMode.forceHigh
  | true, true => none

/-! ## Arithmetic of tone words -/

theorem stripVolume_eq_mod (f : Nat) : stripVolume f = f % 32768 := by
  have h : (0xFFFF ^^^ TONE_HIGH_VOLUME) = 2 ^ 15 - 1 := by decide
  unfold stripVolume
  rw [h, Nat.and_pow_two_sub_one_eq_mod]

/-- On a 16-bit word the high-volume test is the test of bit 15. -/
theorem hasHighVolume_eq (f : Nat) (hf : f < 65536) :
    hasHighVolume f = decide (32768 ≤ f) := by
  have h : TONE_HIGH_VOLUME = 2 ^ 15 := by decide
  unfold hasHighVolume
  rw [h, Nat.and_two_pow, Nat.testBit_to_div_mod]
  by_cases h1 : 32768 ≤ f
  · have h2 : f / 2 ^ 15 % 2 = 1 := by omega
    rw [decide_eq_true h2, decide_eq_true h1]
    rfl
  · have h2 : ¬ (f / 2 ^ 15 % 2 = 1) := by omega
    rw [decide_eq_false h2, decide_eq_false h1]
    rfl

theorem store_same (m : Nat → Nat) (a v : Nat) : store m a v a = v % 65536 := by
  simp [store]

theorem store_other (m : Nat → Nat) (a v x : Nat) (hx : x ≠ a) : store m a v x = m x := by
  simp [store, hx]

/-! ## noTone -/

/-- C6: from every state `noTone` leaves `playing()` false; a held channel
stays held with its enable flag cleared and nothing else changed, and no
channel stays no channel; calling `noTone` twice gives the same state as
calling it once. -/
theorem noTone_stops_idempotent (s : State) :
    playing (noTone s) = false ∧
    (noTone s).gb_channel = s.gb_channel.map (fun ch => { ch with use := false }) ∧
    noTone (noTone s) = noTone s := by
  cases hc : s.gb_channel with
  | none => simp [noTone, playing, hc]
  | some ch => simp [noTone, playing, hc]

/-! ## What one advance does -/

theorem programTone_held (h : Host) (f : Nat) (s : State) (ch : Sound_Channel)
    (hpos : 0 < stripVolume f)
    (hch : s.gb_channel = some ch) :
    programTone h f s =
      { s with
        toneHighVol := highVolOf s f
        toneSilent := silentOf h f
        tonesIndex := s.tonesIndex + 1
        gb_channel := some (programmed h s ch f)
        gb_tone_duration := ((s.mem s.tonesIndex % 65536 : Nat) : Int) } := by
  have hz : stripVolume f ≠ 0 := by omega
  cases ho : h.outputEnabled <;>
    simp [programTone, getNext, hch, programmed, highVolOf, silentOf, checkedDiv, hz, ho]

theorem programTone_acquire (h : Host) (f : Nat) (s : State) (ch : Sound_Channel)
    (hpos : 0 < stripVolume f)
    (hch : s.gb_channel = none) (hp : h.play = some ch) :
    programTone h f s =
      { s with
        toneHighVol := highVolOf s f
        toneSilent := silentOf h f
        tonesIndex := s.tonesIndex + 1
        gb_handler := true
        gb_channel := some (programmed h s ch f)
        gb_tone_duration := ((s.mem s.tonesIndex % 65536 : Nat) : Int) } := by
  have hz : stripVolume f ≠ 0 := by omega
  cases ho : h.outputEnabled <;>
    simp [programTone, getNext, hch, hp, programmed, highVolOf, silentOf, checkedDiv, hz, ho]

/-- A rest with a channel held: the channel type is stored, then the run
stops at `22050 / 0`; repeat count, index, amplitude, enable flag and counter
are as before. -/
theorem programTone_held_rest (h : Host) (f : Nat) (s : State) (ch : Sound_Channel)
    (hz : stripVolume f = 0)
    (hch : s.gb_channel = some ch) :
    programTone h f s =
      { s with
        toneHighVol := highVolOf s f
        toneSilent := true
        tonesIndex := s.tonesIndex + 1
        gb_channel := some { ch with type := Sound_Channel_Type.pattern }
        halted := true } := by
  simp [programTone, getNext, hch, highVolOf, checkedDiv, hz]

/-- A rest with a channel handed out by the host: as with a channel held,
the run stops at `22050 / 0`. -/
theorem programTone_acquire_rest (h : Host) (f : Nat) (s : State) (ch : Sound_Channel)
    (hz : stripVolume f = 0)
    (hch : s.gb_channel = none) (hp : h.play = some ch) :
    programTone h f s =
      { s with
        toneHighVol := highVolOf s f
        toneSilent := true
        tonesIndex := s.tonesIndex + 1
        gb_handler := true
        gb_channel := some { ch with type := Sound_Channel_Type.pattern }
        halted := true } := by
  simp [programTone, getNext, hch, hp, highVolOf, checkedDiv, hz]

theorem programTone_fail (h : Host) (f : Nat) (s : State)
    (hch : s.gb_channel = none) (hp : h.play = none) :
    programTone h f s =
      { s with
        toneHighVol := highVolOf s f
        toneSilent := silentOf h f
        tonesIndex := s.tonesIndex + 1
        gb_handler := false
        gb_channel := none } := by
  by_cases hz : stripVolume f = 0 <;> cases ho : h.outputEnabled <;>
    simp [programTone, getNext, hch, hp, highVolOf, silentOf, hz, ho]

theorem nextTone_end (h : Host) (s : State)
    (hE : s.mem s.tonesIndex % 65536 = TONES_END) :
    nextTone h s = noTone { s with tonesIndex := s.tonesIndex + 1 } := by
  simp [nextTone, getNext, hE]

theorem nextTone_tone (h : Host) (s : State)
    (hE : s.mem s.tonesIndex % 65536 ≠ TONES_END)
    (hR : s.mem s.tonesIndex % 65536 ≠ TONES_REPEAT) :
    nextTone h s =
      programTone h (s.mem s.tonesIndex % 65536)
        { s with tonesIndex := s.tonesIndex + 1, tonesPlaying := true } := by
  simp [nextTone, getNext, hE, hR]

theorem nextTone_repeat (h : Host) (s : State)
    (hR : s.mem s.tonesIndex % 65536 = TONES_REPEAT) :
    nextTone h s =
      programTone h (s.mem s.tonesStart % 65536)
        { s with tonesIndex := s.tonesStart + 1, tonesPlaying := true } := by
  have hE : ¬ (TONES_REPEAT = TONES_END) := by decide
  simp [nextTone, getNext, hR, hE]

theorem nextTone_tone_held (h : Host) (s : State) (ch : Sound_Channel)
    (hE : s.mem s.tonesIndex % 65536 ≠ TONES_END)
    (hR : s.mem s.tonesIndex % 65536 ≠ TONES_REPEAT)
    (hpos : 0 < stripVolume (s.mem s.tonesIndex % 65536))
    (hch : s.gb_channel = some ch) :
    nextTone h s =
      { s with
        tonesPlaying := true
        toneHighVol := highVolOf s (s.mem s.tonesIndex % 65536)
        toneSilent := silentOf h (s.mem s.tonesIndex % 65536)
        tonesIndex := s.tonesIndex + 1 + 1
        gb_channel := some (programmed h s ch (s.mem s.tonesIndex % 65536))
        gb_tone_duration := ((s.mem (s.tonesIndex + 1) % 65536 : Nat) : Int) } := by
  rw [nextTone_tone h s hE hR]
  exact programTone_held h _ _ ch hpos hch

theorem nextTone_tone_acquire (h : Host) (s : State) (ch : Sound_Channel)
    (hE : s.mem s.tonesIndex % 65536 ≠ TONES_END)
    (hR : s.mem s.tonesIndex % 65536 ≠ TONES_REPEAT)
    (hpos : 0 < stripVolume (s.mem s.tonesIndex % 65536))
    (hch : s.gb_channel = none) (hp : h.play = some ch) :
    nextTone h s =
      { s with
        tonesPlaying := true
        toneHighVol := highVolOf s (s.mem s.tonesIndex % 65536)
        toneSilent := silentOf h (s.mem s.tonesIndex % 65536)
        tonesIndex := s.tonesIndex + 1 + 1
        gb_handler := true
        gb_channel := some (programmed h s ch (s.mem s.tonesIndex % 65536))
        gb_tone_duration := ((s.mem (s.tonesIndex + 1) % 65536 : Nat) : Int) } := by
  rw [nextTone_tone h s hE hR]
  exact programTone_acquire h _ _ ch hpos hch hp

theorem nextTone_tone_fail (h : Host) (s : State)
    (hE : s.mem s.tonesIndex % 65536 ≠ TONES_END)
    (hR : s.mem s.tonesIndex % 65536 ≠ TONES_REPEAT)
    (hch : s.gb_channel = none) (hp : h.play = none) :
    nextTone h s =
      { s with
        tonesPlaying := true
        toneHighVol := highVolOf s (s.mem s.tonesIndex % 65536)
        toneSilent := silentOf h (s.mem s.tonesIndex % 65536)
        tonesIndex := s.tonesIndex + 1 + 1
        gb_handler := false
        gb_channel := none } := by
  rw [nextTone_tone h s hE hR]
  exact programTone_fail h _ _ hch hp

theorem nextTone_repeat_held (h : Host) (s : State) (ch : Sound_Channel)
    (hR : s.mem s.tonesIndex % 65536 = TONES_REPEAT)
    (hpos : 0 < stripVolume (s.mem s.tonesStart % 65536))
    (hch : s.gb_channel = some ch) :
    nextTone h s =
      { s with
        tonesPlaying := true
        toneHighVol := highVolOf s (s.mem s.tonesStart % 65536)
        toneSilent := silentOf h (s.mem s.tonesStart % 65536)
        tonesIndex := s.tonesStart + 1 + 1
        gb_channel := some (programmed h s ch (s.mem s.tonesStart % 65536))
        gb_tone_duration := ((s.mem (s.tonesStart + 1) % 65536 : Nat) : Int) } := by
  rw [nextTone_repeat h s hR]
  exact programTone_held h _ _ ch hpos hch

/-- An advance over a rest with a channel held: both words are read, the
playing flag is set, and the run stops at `22050 / 0` with the channel's
repeat count, index, amplitude and enable flag and the counter as before. -/
theorem nextTone_rest_held (h : Host) (s : State) (ch : Sound_Channel)
    (hE : s.mem s.tonesIndex % 65536 ≠ TONES_END)
    (hR : s.mem s.tonesIndex % 65536 ≠ TONES_REPEAT)
    (hz : stripVolume (s.mem s.tonesIndex % 65536) = 0)
    (hch : s.gb_channel = some ch) :
    nextTone h s =
      { s with
        tonesPlaying := true
        toneHighVol := highVolOf s (s.mem s.tonesIndex % 65536)
        toneSilent := true
        tonesIndex := s.tonesIndex + 1 + 1
        gb_channel := some { ch with type := Sound_Channel_Type.pattern }
        halted := true } := by
  rw [nextTone_tone h s hE hR]
  exact programTone_held_rest h _ _ ch hz hch

/-- On every path, stopped at the division or not, `programTone` reads one
word, leaves the memory, the sequence start, the buffer address, the
override flags and the playing flag alone, and stores the volume decision. -/
theorem programTone_keeps (h : Host) (f : Nat) (t : State) :
    (programTone h f t).mem = t.mem ∧
    (programTone h f t).tonesIndex = t.tonesIndex + 1 ∧
    (programTone h f t).tonesStart = t.tonesStart ∧
    (programTone h f t).toneSequence = t.toneSequence ∧
    (programTone h f t).forceHighVol = t.forceHighVol ∧
    (programTone h f t).forceNormVol = t.forceNormVol ∧
    (programTone h f t).toneHighVol = highVolOf t f ∧
    (programTone h f t).tonesPlaying = t.tonesPlaying := by
  rcases Option.eq_none_or_eq_some t.gb_channel with hc | ⟨c, hc⟩
  · rcases Option.eq_none_or_eq_some h.play with hq | ⟨c, hq⟩
    · rw [programTone_fail h f t hc hq]
      exact ⟨rfl, rfl, rfl, rfl, rfl, rfl, rfl, rfl⟩
    · by_cases hz : stripVolume f = 0
      · rw [programTone_acquire_rest h f t c hz hc hq]
        exact ⟨rfl, rfl, rfl, rfl, rfl, rfl, rfl, rfl⟩
      · rw [programTone_acquire h f t c (by omega) hc hq]
        exact ⟨rfl, rfl, rfl, rfl, rfl, rfl, rfl, rfl⟩
  · by_cases hz : stripVolume f = 0
    · rw [programTone_held_rest h f t c hz hc]
      exact ⟨rfl, rfl, rfl, rfl, rfl, rfl, rfl, rfl⟩
    · rw [programTone_held h f t c (by omega) hc]
      exact ⟨rfl, rfl, rfl, rfl, rfl, rfl, rfl, rfl⟩

/-! ## The amplitude written for a tone -/

theorem programmed_amplitude_audible (h : Host) (s : State) (ch : Sound_Channel) (f : Nat)
    (hpos : 0 < stripVolume f) (ho : h.outputEnabled = true) :
    (programmed h s ch f).amplitude = if highVolOf s f then 0x30 else 12 := by
  have hz : stripVolume f ≠ 0 := by omega
  simp [programmed, silentOf, hz, ho]

theorem programmed_amplitude_muted (h : Host) (s : State) (ch : Sound_Channel) (f : Nat)
    (ho : h.outputEnabled = false) : (programmed h s ch f).amplitude = 0 := by
  simp [programmed, silentOf, ho]

/-! ## Starting a single tone -/

/-- The state in which the one-tone overload calls `nextTone`. -/
theorem tone_eq_nextTone (f d : Nat) (h : Host) (s : State) :
    tone f d h s =
      nextTone h
        { s with
          tonesStart := s.toneSequence
          tonesIndex := s.toneSequence
          mem := store (store (store s.mem (s.toneSequence + 0) f) (s.toneSequence + 1) d)
                  (s.toneSequence + 2) TONES_END } := rfl

/-- The word the one-tone overload leaves under the cursor. -/
theorem tone_first_word (f d : Nat) (m : Nat → Nat) (b : Nat) :
    (store (store (store m (b + 0) f) (b + 1) d) (b + 2) TONES_END) b % 65536
      = f % 65536 := by
  rw [store_other _ _ _ _ (by omega), store_other _ _ _ _ (by omega)]
  simp only [Nat.add_zero, store_same, Nat.mod_mod]

/-- An advance over a real tone with a channel at hand: the state is playing
and the channel carries the amplitude decided for the tone word. -/
theorem nextTone_plays (f : Nat) (h : Host) (t : State)
    (hw : t.mem t.tonesIndex % 65536 = f)
    (hE : f ≠ TONES_END) (hR : f ≠ TONES_REPEAT) (hpos : 0 < stripVolume f)
    (hch : t.gb_channel ≠ none ∨ h.play ≠ none) :
    playing (nextTone h t) = true ∧
    ∃ c ch, (nextTone h t).gb_channel = some ch ∧ ch = programmed h t c f := by
  subst hw
  rcases Option.eq_none_or_eq_some t.gb_channel with hc | ⟨c, hc⟩
  · rcases Option.eq_none_or_eq_some h.play with hp | ⟨c, hp⟩
    · simp [hc, hp] at hch
    · rw [nextTone_tone_acquire h t c hE hR hpos hc hp]
      exact ⟨rfl, c, _, rfl, rfl⟩
  · rw [nextTone_tone_held h t c hE hR hpos hc]
    exact ⟨rfl, c, _, rfl, rfl⟩

/-- C1: for a frequency word `f` that is neither END nor REPEAT and whose
stripped value is positive, and any duration, when a channel is held or the
host hands one out, after `tone f d` the sequencer is playing and the channel
amplitude is non-zero if `outputEnabled()` answered true and zero if it
answered false. -/
theorem tone_plays_with_amplitude (f d : Nat) (h : Host) (s : State)
    (hf : f < 65536) (hE : f ≠ TONES_END) (hR : f ≠ TONES_REPEAT)
    (hpos : 0 < stripVolume f)
    (hch : s.gb_channel ≠ none ∨ h.play ≠ none) :
    playing (tone f d h s) = true ∧
    ∃ ch, (tone f d h s).gb_channel = some ch ∧
      (h.outputEnabled = true → ch.amplitude ≠ 0) ∧
      (h.outputEnabled = false → ch.amplitude = 0) := by
  rw [tone_eq_nextTone]
  obtain ⟨hp, c, ch, hg, rfl⟩ := nextTone_plays f h
    { s with
      tonesStart := s.toneSequence
      tonesIndex := s.toneSequence
      mem := store (store (store s.mem (s.toneSequence + 0) f) (s.toneSequence + 1) d)
              (s.toneSequence + 2) TONES_END }
    ((tone_first_word f d s.mem s.toneSequence).trans (Nat.mod_eq_of_lt hf)) hE hR hpos hch
  refine ⟨hp, _, hg, fun ho => ?_, fun ho => programmed_amplitude_muted h _ c f ho⟩
  rw [programmed_amplitude_audible h _ c f hpos ho]
  split <;> decide

/-- C1, at a concrete input: `tone 440 100` on the freshly constructed
sequencer, the host handing out an idle channel, output enabled. -/
theorem tone_plays_with_amplitude_witness :
    playing (tone 440 100 ⟨true, some idleChannel, 16⟩ (ArduboyTones (startup 0))) = true ∧
    ∃ ch, (tone 440 100 ⟨true, some idleChannel, 16⟩ (ArduboyTones (startup 0))).gb_channel
        = some ch ∧
      ((true : Bool) = true → ch.amplitude ≠ 0) ∧
      ((true : Bool) = false → ch.amplitude = 0) :=
  tone_plays_with_amplitude 440 100 ⟨true, some idleChannel, 16⟩ (ArduboyTones (startup 0))
    (by decide) (by decide) (by decide) (by decide) (Or.inr (by simp))

/-! ## Frame ticks -/

theorem gb_updateTones_no_channel (h : Host) (s : State) (hch : s.gb_channel = none) :
    gb_updateTones h s = noTone s := by
  simp [gb_updateTones, hch]

theorem gb_updateTones_pending (h : Host) (s : State) (ch : Sound_Channel)
    (hch : s.gb_channel = some ch) (hpos : 0 < s.gb_tone_duration - h.timePerFrame) :
    gb_updateTones h s =
      { s with gb_tone_duration := s.gb_tone_duration - h.timePerFrame } := by
  have hn : ¬ (s.gb_tone_duration - h.timePerFrame ≤ 0) := by omega
  simp [gb_updateTones, hch, hn]

theorem gb_updateTones_expired (h : Host) (s : State) (ch : Sound_Channel)
    (hch : s.gb_channel = some ch) (hexp : s.gb_tone_duration - h.timePerFrame ≤ 0) :
    gb_updateTones h s =
      nextTone h { s with gb_tone_duration := s.gb_tone_duration - h.timePerFrame } := by
  simp [gb_updateTones, hch, hexp]

theorem runTicks_append (hs : List Host) (h : Host) (s : State) :
    runTicks (hs ++ [h]) s = gb_updateTones h (runTicks hs s) := by
  induction hs generalizing s with
  | nil => rfl
  | cons a as ih => exact ih (gb_updateTones a s)

theorem elapsed_nil : elapsed [] = 0 := rfl

theorem elapsed_cons (h : Host) (hs : List Host) :
    elapsed (h :: hs) = h.timePerFrame + elapsed hs := by
  simp [elapsed]

/-- Ticks that never exhaust the counter only count it down. -/
theorem runTicks_noExpiry (hs : List Host) (s : State) (ch : Sound_Channel)
    (hch : s.gb_channel = some ch) (hne : NoExpiry s.gb_tone_duration hs) :
    runTicks hs s = { s with gb_tone_duration := s.gb_tone_duration - elapsed hs } := by
  induction hs generalizing s with
  | nil => simp [runTicks, elapsed_nil]
  | cons a as ih =>
    obtain ⟨h1, h2⟩ := hne
    rw [runTicks, gb_updateTones_pending a s ch hch h1,
      ih { s with gb_tone_duration := s.gb_tone_duration - a.timePerFrame } hch h2,
      elapsed_cons]
    simp only [State.mk.injEq, true_and, and_true]
    omega

/-! ## Sequences that end -/

/-- The state right after `tones p` on a sequence that begins with the real
tone word `f1` and duration `d1`, a channel being held. -/
theorem tones_start_held (p f1 d1 : Nat) (h0 : Host) (s : State) (c0 : Sound_Channel)
    (hch : s.gb_channel = some c0) (m0 : s.mem p = f1) (m1 : s.mem (p + 1) = d1)
    (hf : RealTone f1) (hd : d1 < 65536) :
    tones p h0 s =
      { s with
        tonesPlaying := true
        toneHighVol := highVolOf s f1
        toneSilent := silentOf h0 f1
        tonesStart := p
        tonesIndex := p + 2
        gb_channel := some (programmed h0 s c0 f1)
        gb_tone_duration := (d1 : Int) } := by
  obtain ⟨hlt, hE, hR, hpos⟩ := hf
  have hw : s.mem p % 65536 = f1 := by rw [m0]; exact Nat.mod_eq_of_lt hlt
  have e := nextTone_tone_held h0 { s with tonesStart := p, tonesIndex := p } c0
    (by simpa [hw] using hE) (by simpa [hw] using hR) (by simpa [hw] using hpos) hch
  unfold tones
  rw [e]
  simp [hw, m1, Nat.mod_eq_of_lt hd, highVolOf, programmed]

/-- C2: for a sequence `[f1, d1, END]` with `f1` a real non-zero frequency,
started with a channel held, and ticks `hs` that leave the counter positive:
the next tick `h`, on which the counter drops to zero or below, finds the
cursor on the END slot, moves it one slot past END, and leaves `playing()`
false and the held channel's enable flag cleared. -/
theorem single_tone_ends_at_expiry (p f1 d1 : Nat) (s : State) (c0 : Sound_Channel)
    (h0 : Host) (hs : List Host) (h : Host)
    (hch : s.gb_channel = some c0)
    (hseq : SeqAt s.mem p [f1, d1, TONES_END])
    (hf : RealTone f1) (hd : d1 < 65536)
    (hne : NoExpiry (d1 : Int) hs)
    (hexp : (d1 : Int) - elapsed hs - h.timePerFrame ≤ 0) :
    (runTicks hs (tones p h0 s)).tonesIndex = p + 2 ∧
    playing (runTicks (hs ++ [h]) (tones p h0 s)) = false ∧
    (∃ c, (runTicks (hs ++ [h]) (tones p h0 s)).gb_channel = some c ∧ c.use = false) ∧
    (runTicks (hs ++ [h]) (tones p h0 s)).tonesIndex = p + 3 := by
  obtain ⟨m0, m1, m2, -⟩ := hseq
  rw [runTicks_append, tones_start_held p f1 d1 h0 s c0 hch m0 m1 hf hd,
    runTicks_noExpiry hs _ (programmed h0 s c0 f1) rfl hne,
    gb_updateTones_expired h _ (programmed h0 s c0 f1) rfl hexp,
    nextTone_end h _ (by simpa [m2] using (by decide : TONES_END % 65536 = TONES_END))]
  simp [noTone, playing]

/-- C2, at a concrete input: the sequence `[440, 10, END]` at address 100,
two ticks of 4 units that leave the counter at 2, then a tick of 4. -/
theorem single_tone_ends_at_expiry_witness :
    (runTicks [frame 4, frame 4]
      (tones 100 hostReady (heldWith [440, 10, TONES_END]))).tonesIndex = 100 + 2 ∧
    playing (runTicks ([frame 4, frame 4] ++ [frame 4])
      (tones 100 hostReady (heldWith [440, 10, TONES_END]))) = false ∧
    (∃ c, (runTicks ([frame 4, frame 4] ++ [frame 4])
      (tones 100 hostReady (heldWith [440, 10, TONES_END]))).gb_channel = some c ∧
        c.use = false) ∧
    (runTicks ([frame 4, frame 4] ++ [frame 4])
      (tones 100 hostReady (heldWith [440, 10, TONES_END]))).tonesIndex = 100 + 3 :=
  single_tone_ends_at_expiry 100 440 10 (heldWith [440, 10, TONES_END]) idleChannel
    hostReady [frame 4, frame 4] (frame 4) rfl ⟨rfl, rfl, rfl, trivial⟩
    (by unfold RealTone; decide) (by decide)
    (by simp [NoExpiry, frame]) (by simp [elapsed, frame])

/-! ## After playback has ended -/

/-- C3 fails as stated.  First run: `tone(440, 10, 880, 20)` and then
`tone(440, 10)` with a channel held leave `[440, 10, END, 20, END]` in the
inline buffer; a tick of 10 units reads END and stops; the channel is still
held, so the next tick advances again, reads the two slots after END (the
words 20 and `0x8000`), and the sequencer is playing with the channel
enabled.  Second run: `noTone` right after starting the two-tone sequence;
the tick that exhausts the counter programs tone 2. -/
theorem stopped_not_stable_counterexample :
    (playing (runTicks [frame 10]
        (tone 440 10 hostReady (tone2 440 10 880 20 hostReady (heldWith [])))) = false ∧
     (runTicks [frame 10]
        (tone 440 10 hostReady (tone2 440 10 880 20 hostReady (heldWith [])))).tonesIndex
        = 3 ∧
     playing (runTicks [frame 10, frame 0]
        (tone 440 10 hostReady (tone2 440 10 880 20 hostReady (heldWith [])))) = true ∧
     (runTicks [frame 10, frame 0]
        (tone 440 10 hostReady (tone2 440 10 880 20 hostReady (heldWith [])))).tonesIndex
        = 5 ∧
     ((runTicks [frame 10, frame 0]
        (tone 440 10 hostReady (tone2 440 10 880 20 hostReady (heldWith [])))).gb_channel.map
        (fun c => c.use)) = some true ∧
     (runTicks [frame 10, frame 0]
        (tone 440 10 hostReady (tone2 440 10 880 20 hostReady (heldWith [])))).halted
        = false) ∧
    (playing (noTone (tone2 440 10 880 20 hostReady (heldWith []))) = false ∧
     playing (runTicks [frame 10]
        (noTone (tone2 440 10 880 20 hostReady (heldWith [])))) = true ∧
     ((runTicks [frame 10]
        (noTone (tone2 440 10 880 20 hostReady (heldWith [])))).gb_channel.map
        (fun c => c.use)) = some true ∧
     (runTicks [frame 10]
        (noTone (tone2 440 10 880 20 hostReady (heldWith [])))).halted = false) := by
  decide

/-- Ticks without a channel held leave a stopped sequencer as it is. -/
theorem runTicks_no_channel (hs : List Host) (s : State)
    (hp : s.tonesPlaying = false) (hch : s.gb_channel = none) :
    runTicks hs s = s := by
  induction hs with
  | nil => rfl
  | cons a as ih =>
    rw [runTicks, gb_updateTones_no_channel a s hch]
    have e : noTone s = s := by
      cases s
      simp_all [noTone]
    rw [e]
    exact ih

/-- C3, amended: in a state where `playing()` is false and either no channel
is held, or the held channel's enable flag is cleared and the ticks leave the
remaining-duration counter positive, any run of ticks leaves `playing()`
false, a held channel's enable flag cleared and the cursor where it was, so
no sequence slot is read. -/
theorem stopped_stable_without_advance (s : State) (hs : List Host)
    (hp : playing s = false)
    (hcase : s.gb_channel = none ∨
      (∃ c, s.gb_channel = some c ∧ c.use = false) ∧ NoExpiry s.gb_tone_duration hs) :
    playing (runTicks hs s) = false ∧
    (runTicks hs s).gb_channel = s.gb_channel ∧
    (∀ c, (runTicks hs s).gb_channel = some c → c.use = false) ∧
    (runTicks hs s).tonesIndex = s.tonesIndex ∧
    (runTicks hs s).mem = s.mem := by
  rcases hcase with hn | ⟨⟨c, hc, hu⟩, hne⟩
  · rw [runTicks_no_channel hs s hp hn]
    refine ⟨hp, rfl, ?_, rfl, rfl⟩
    intro c hc
    rw [hn] at hc
    cases hc
  · rw [runTicks_noExpiry hs s c hc hne]
    refine ⟨hp, rfl, ?_, rfl, rfl⟩
    intro c1 hc1
    have e : c1 = c := by
      have h2 : some c1 = some c := hc1.symm.trans hc
      exact Option.some.inj h2
    rw [e]
    exact hu

/-- C3 amended, at a concrete input: `noTone` while the first of two tones
sounds, then two ticks of 4 units against a counter of 10. -/
theorem stopped_stable_without_advance_witness :
    playing (runTicks [frame 4, frame 4]
      (noTone (tone2 440 10 880 20 hostReady (heldWith [])))) = false ∧
    (runTicks [frame 4, frame 4]
      (noTone (tone2 440 10 880 20 hostReady (heldWith [])))).gb_channel =
      (noTone (tone2 440 10 880 20 hostReady (heldWith []))).gb_channel ∧
    (∀ c, (runTicks [frame 4, frame 4]
      (noTone (tone2 440 10 880 20 hostReady (heldWith [])))).gb_channel = some c →
        c.use = false) ∧
    (runTicks [frame 4, frame 4]
      (noTone (tone2 440 10 880 20 hostReady (heldWith [])))).tonesIndex =
      (noTone (tone2 440 10 880 20 hostReady (heldWith []))).tonesIndex ∧
    (runTicks [frame 4, frame 4]
      (noTone (tone2 440 10 880 20 hostReady (heldWith [])))).mem =
      (noTone (tone2 440 10 880 20 hostReady (heldWith []))).mem :=
  stopped_stable_without_advance (noTone (tone2 440 10 880 20 hostReady (heldWith [])))
    [frame 4, frame 4] (by decide)
    (Or.inr ⟨⟨_, rfl, by decide⟩, ⟨by decide, by decide, trivial⟩⟩)

/-! ## Advancing to the second tone -/

theorem elapsed_nonneg (hs : List Host) (hnn : ∀ h ∈ hs, 0 ≤ h.timePerFrame) :
    0 ≤ elapsed hs := by
  induction hs with
  | nil => simp [elapsed_nil]
  | cons a as ih =>
    rw [elapsed_cons]
    have h1 := hnn a (List.mem_cons_self a as)
    have h2 := ih (fun h hh => hnn h (List.mem_cons_of_mem a hh))
    omega

/-- Non-negative ticks whose total stays below the counter never exhaust it. -/
theorem noExpiry_of_nonneg (hs : List Host) (c : Int)
    (hnn : ∀ h ∈ hs, 0 ≤ h.timePerFrame) (hlt : elapsed hs < c) : NoExpiry c hs := by
  induction hs generalizing c with
  | nil => trivial
  | cons a as ih =>
    rw [elapsed_cons] at hlt
    have h1 := hnn a (List.mem_cons_self a as)
    have hnn2 : ∀ h ∈ as, 0 ≤ h.timePerFrame := fun h hh => hnn h (List.mem_cons_of_mem a hh)
    have h2 := elapsed_nonneg as hnn2
    exact ⟨by omega, ih (c - a.timePerFrame) hnn2 (by omega)⟩

theorem checkedDiv_pos (n d : Nat) (hd : 0 < d) : checkedDiv n d = some (n / d) := by
  have hz : d ≠ 0 := by omega
  simp [checkedDiv, hz]

/-- With a channel held and the real tone `(f2, d2)` under the cursor: after
a non-empty run of non-negative ticks whose total is at least the current
counter and less than the counter plus `d2`, the channel is programmed for
`f2` and that tone has not expired. -/
theorem runTicks_reaches_next_tone (f2 d2 : Nat) (hf2 : RealTone f2) (hd2 : d2 < 65536)
    (hs : List Host) (t : State) (c : Sound_Channel)
    (hch : t.gb_channel = some c)
    (m0 : t.mem t.tonesIndex = f2) (m1 : t.mem (t.tonesIndex + 1) = d2)
    (hne : hs ≠ []) (hnn : ∀ h ∈ hs, 0 ≤ h.timePerFrame)
    (hlo : t.gb_tone_duration ≤ elapsed hs)
    (hhi : elapsed hs < t.gb_tone_duration + (d2 : Int)) :
    playing (runTicks hs t) = true ∧
    (∃ c1, (runTicks hs t).gb_channel = some c1 ∧ c1.use = true ∧
      c1.total = some (22050 / stripVolume f2)) ∧
    (runTicks hs t).tonesIndex = t.tonesIndex + 2 ∧
    0 < (runTicks hs t).gb_tone_duration := by
  induction hs generalizing t with
  | nil => exact absurd rfl hne
  | cons a as ih =>
    rw [elapsed_cons] at hlo hhi
    have hnn2 : ∀ h ∈ as, 0 ≤ h.timePerFrame := fun h hh => hnn h (List.mem_cons_of_mem a hh)
    have ha := hnn a (List.mem_cons_self a as)
    by_cases hexp : t.gb_tone_duration - a.timePerFrame ≤ 0
    · obtain ⟨hlt, hE, hR, hpos⟩ := hf2
      have hw : t.mem t.tonesIndex % 65536 = f2 := by rw [m0]; exact Nat.mod_eq_of_lt hlt
      have hne2 : NoExpiry (d2 : Int) as := noExpiry_of_nonneg as _ hnn2 (by omega)
      have e := nextTone_tone_held a
        { t with gb_tone_duration := t.gb_tone_duration - a.timePerFrame } c
        (by simpa [hw] using hE) (by simpa [hw] using hR) (by simpa [hw] using hpos) hch
      rw [runTicks, gb_updateTones_expired a t c hch hexp, e,
        runTicks_noExpiry as _ _ rfl (by simpa [m1, Nat.mod_eq_of_lt hd2] using hne2)]
      have hel : elapsed as < (d2 : Int) := by omega
      refine ⟨rfl, ⟨_, rfl, rfl, ?_⟩, rfl, ?_⟩
      · simp only [programmed, hw]
        exact checkedDiv_pos _ _ hpos
      · simp only [m1, Nat.mod_eq_of_lt hd2]
        omega
    · have hpend : 0 < t.gb_tone_duration - a.timePerFrame := by omega
      have hne2 : as ≠ [] := by
        intro hnil
        rw [hnil, elapsed_nil] at hlo
        omega
      rw [runTicks, gb_updateTones_pending a t c hch hpend]
      exact ih { t with gb_tone_duration := t.gb_tone_duration - a.timePerFrame } hch m0 m1
        hne2 hnn2 (by simp only; omega) (by simp only; omega)

/-- The words the two-tone overload leaves in the inline buffer. -/
theorem tone2_words (f1 d1 f2 d2 : Nat) (m : Nat → Nat) (b : Nat) :
    SeqAt (store (store (store (store (store m (b + 0) f1) (b + 1) d1) (b + 2) f2)
        (b + 3) d2) (b + 4) TONES_END) b
      [f1 % 65536, d1 % 65536, f2 % 65536, d2 % 65536, TONES_END] := by
  refine ⟨?_, ?_, ?_, ?_, ?_, trivial⟩
  · rw [store_other _ _ _ _ (by omega), store_other _ _ _ _ (by omega),
      store_other _ _ _ _ (by omega), store_other _ _ _ _ (by omega)]
    simp only [Nat.add_zero, store_same]
  · rw [store_other _ _ _ _ (by omega), store_other _ _ _ _ (by omega),
      store_other _ _ _ _ (by omega), store_same]
  · rw [store_other _ _ _ _ (by omega), store_other _ _ _ _ (by omega)]
    exact store_same _ _ _
  · rw [store_other _ _ _ _ (by omega)]
    exact store_same _ _ _
  · exact store_same _ _ _

theorem tone2_eq_tones (f1 d1 f2 d2 : Nat) (h : Host) (s : State) :
    tone2 f1 d1 f2 d2 h s =
      tones s.toneSequence h
        { s with
          mem := store (store (store (store (store s.mem (s.toneSequence + 0) f1)
            (s.toneSequence + 1) d1) (s.toneSequence + 2) f2) (s.toneSequence + 3) d2)
            (s.toneSequence + 4) TONES_END } := rfl

/-- C4: for the sequence `[f1, d1, f2, d2, END]` with `f1`, `f2` real non-zero
frequencies, started by the two-tone overload with a channel held, and every
non-empty run of ticks with non-negative elapsed values whose total `e`
satisfies `d1 ≤ e < d1 + d2`: afterwards `playing()` is true, the channel is
enabled with repeat count `22050 / (f2 & 0x7FFF)`, the cursor stands right
after tone 2 (on the END slot, not yet read) and the counter of tone 2 is
still positive. -/
theorem two_tone_second_programmed (f1 d1 f2 d2 : Nat) (s : State) (c0 : Sound_Channel)
    (h0 : Host) (hs : List Host)
    (hch : s.gb_channel = some c0)
    (hf1 : RealTone f1) (hf2 : RealTone f2) (hd1 : d1 < 65536) (hd2 : d2 < 65536)
    (hne : hs ≠ []) (hnn : ∀ h ∈ hs, 0 ≤ h.timePerFrame)
    (hlo : (d1 : Int) ≤ elapsed hs) (hhi : elapsed hs < (d1 : Int) + (d2 : Int)) :
    playing (runTicks hs (tone2 f1 d1 f2 d2 h0 s)) = true ∧
    (∃ c1, (runTicks hs (tone2 f1 d1 f2 d2 h0 s)).gb_channel = some c1 ∧ c1.use = true ∧
      c1.total = some (22050 / stripVolume f2)) ∧
    (runTicks hs (tone2 f1 d1 f2 d2 h0 s)).tonesIndex = s.toneSequence + 4 ∧
    0 < (runTicks hs (tone2 f1 d1 f2 d2 h0 s)).gb_tone_duration := by
  obtain ⟨w0, w1, w2, w3, -⟩ := tone2_words f1 d1 f2 d2 s.mem s.toneSequence
  rw [Nat.mod_eq_of_lt hf1.1] at w0
  rw [Nat.mod_eq_of_lt hd1] at w1
  rw [Nat.mod_eq_of_lt hf2.1] at w2
  rw [Nat.mod_eq_of_lt hd2] at w3
  have e := tones_start_held s.toneSequence f1 d1 h0
    { s with
      mem := store (store (store (store (store s.mem (s.toneSequence + 0) f1)
        (s.toneSequence + 1) d1) (s.toneSequence + 2) f2) (s.toneSequence + 3) d2)
        (s.toneSequence + 4) TONES_END } c0 hch w0 w1 hf1 hd1
  rw [tone2_eq_tones, e]
  exact runTicks_reaches_next_tone f2 d2 hf2 hd2 hs _ _ rfl w2 w3 hne hnn hlo hhi

/-- C4, at a concrete input: `tone(440, 10, 880, 20)` with a channel held,
then ticks of 4, 4 and 4 units (total 12, between 10 and 30). -/
theorem two_tone_second_programmed_witness :
    playing (runTicks [frame 4, frame 4, frame 4]
      (tone2 440 10 880 20 hostReady (heldWith []))) = true ∧
    (∃ c1, (runTicks [frame 4, frame 4, frame 4]
      (tone2 440 10 880 20 hostReady (heldWith []))).gb_channel = some c1 ∧ c1.use = true ∧
      c1.total = some (22050 / stripVolume 880)) ∧
    (runTicks [frame 4, frame 4, frame 4]
      (tone2 440 10 880 20 hostReady (heldWith []))).tonesIndex =
      (heldWith []).toneSequence + 4 ∧
    0 < (runTicks [frame 4, frame 4, frame 4]
      (tone2 440 10 880 20 hostReady (heldWith []))).gb_tone_duration :=
  two_tone_second_programmed 440 10 880 20 (heldWith []) idleChannel hostReady
    [frame 4, frame 4, frame 4] rfl (by unfold RealTone; decide) (by unfold RealTone; decide)
    (by decide) (by decide) (by simp) (by simp [frame]) (by simp [elapsed, frame])
    (by simp [elapsed, frame])

/-! ## Sequences that repeat -/

theorem looping_start (p f1 d1 : Nat) (h0 : Host) (s : State) (c0 : Sound_Channel)
    (hch : s.gb_channel = some c0) (hseq : SeqAt s.mem p [f1, d1, TONES_REPEAT])
    (hf : RealTone f1) (hd : d1 < 65536) :
    Looping p f1 d1 (tones p h0 s) := by
  rw [tones_start_held p f1 d1 h0 s c0 hch hseq.1 hseq.2.1 hf hd]
  refine ⟨rfl, rfl, hseq, rfl, _, rfl, rfl, ?_⟩
  exact checkedDiv_pos _ _ hf.2.2.2

/-- One tick keeps the loop going; a tick that exhausts the counter wraps the
cursor and reloads the counter with `d1`. -/
theorem looping_tick (p f1 d1 : Nat) (h : Host) (t : State)
    (hf : RealTone f1) (hd : d1 < 65536) (hl : Looping p f1 d1 t) :
    Looping p f1 d1 (gb_updateTones h t) ∧
    (t.gb_tone_duration - h.timePerFrame ≤ 0 →
      (gb_updateTones h t).gb_tone_duration = (d1 : Int)) := by
  obtain ⟨hst, hidx, hseq, hpl, c, hc, hu, ht⟩ := hl
  obtain ⟨m0, m1, m2, -⟩ := hseq
  by_cases hexp : t.gb_tone_duration - h.timePerFrame ≤ 0
  · have hR : t.mem t.tonesIndex % 65536 = TONES_REPEAT := by
      rw [hidx, m2]
      decide
    have hw : t.mem t.tonesStart % 65536 = f1 := by
      rw [hst, m0]
      exact Nat.mod_eq_of_lt hf.1
    have hdur : t.mem (t.tonesStart + 1) % 65536 = d1 := by
      rw [hst, m1]
      exact Nat.mod_eq_of_lt hd
    have e := nextTone_repeat_held h
      { t with gb_tone_duration := t.gb_tone_duration - h.timePerFrame } c hR
      (by simpa [hw] using hf.2.2.2) hc
    rw [gb_updateTones_expired h t c hc hexp, e]
    refine ⟨⟨hst, ?_, ⟨m0, m1, m2, trivial⟩, rfl, _, rfl, rfl, ?_⟩, fun _ => ?_⟩
    · show t.tonesStart + 1 + 1 = p + 2
      rw [hst]
    · show checkedDiv 22050 (stripVolume (t.mem t.tonesStart % 65536)) = _
      rw [hw]
      exact checkedDiv_pos _ _ hf.2.2.2
    · show ((t.mem (t.tonesStart + 1) % 65536 : Nat) : Int) = _
      rw [hdur]
  · have hpend : 0 < t.gb_tone_duration - h.timePerFrame := by omega
    rw [gb_updateTones_pending h t c hc hpend]
    exact ⟨⟨hst, hidx, ⟨m0, m1, m2, trivial⟩, hpl, c, hc, hu, ht⟩, fun hx => absurd hx hexp⟩

theorem looping_run (p f1 d1 : Nat) (hs : List Host) (t : State)
    (hf : RealTone f1) (hd : d1 < 65536) (hl : Looping p f1 d1 t) :
    Looping p f1 d1 (runTicks hs t) := by
  induction hs generalizing t with
  | nil => exact hl
  | cons a as ih => exact ih _ (looping_tick p f1 d1 a t hf hd hl).1

/-- C5: for the sequence `[f1, d1, REPEAT]` at `p` with `f1` a real non-zero
frequency, started with a channel held: after any run of ticks `hs` (holding
any number of earlier expiries), a tick `h` that exhausts the counter leaves
the cursor two slots after the sequence start, the channel enabled and
programmed for `f1`, the counter reset to `d1` and `playing()` true; and
`playing()` is true after every run of ticks. -/
theorem repeat_loops_forever (p f1 d1 : Nat) (s : State) (c0 : Sound_Channel)
    (h0 : Host) (hs : List Host) (h : Host)
    (hch : s.gb_channel = some c0)
    (hseq : SeqAt s.mem p [f1, d1, TONES_REPEAT])
    (hf : RealTone f1) (hd : d1 < 65536)
    (hexp : (runTicks hs (tones p h0 s)).gb_tone_duration - h.timePerFrame ≤ 0) :
    (runTicks (hs ++ [h]) (tones p h0 s)).tonesStart = p ∧
    (runTicks (hs ++ [h]) (tones p h0 s)).tonesIndex = p + 2 ∧
    (∃ c, (runTicks (hs ++ [h]) (tones p h0 s)).gb_channel = some c ∧ c.use = true ∧
      c.total = some (22050 / stripVolume f1)) ∧
    (runTicks (hs ++ [h]) (tones p h0 s)).gb_tone_duration = (d1 : Int) ∧
    playing (runTicks (hs ++ [h]) (tones p h0 s)) = true ∧
    (∀ ticks, playing (runTicks ticks (tones p h0 s)) = true) := by
  have hl0 := looping_start p f1 d1 h0 s c0 hch hseq hf hd
  have hl := looping_run p f1 d1 hs _ hf hd hl0
  obtain ⟨⟨hst, hidx, -, hpl, hc⟩, hdur⟩ := looping_tick p f1 d1 h _ hf hd hl
  rw [runTicks_append]
  exact ⟨hst, hidx, hc, hdur hexp, hpl,
    fun ticks => (looping_run p f1 d1 ticks _ hf hd hl0).2.2.2.1⟩

/-- C5, at a concrete input: `[440, 10, REPEAT]` at address 100; a tick of 10
units is the first expiry, a tick of 4 leaves 6, and the tick of 6 units is
the second expiry. -/
theorem repeat_loops_forever_witness :
    (runTicks ([frame 10, frame 4] ++ [frame 6])
      (tones 100 hostReady (heldWith [440, 10, TONES_REPEAT]))).tonesStart = 100 ∧
    (runTicks ([frame 10, frame 4] ++ [frame 6])
      (tones 100 hostReady (heldWith [440, 10, TONES_REPEAT]))).tonesIndex = 100 + 2 ∧
    (∃ c, (runTicks ([frame 10, frame 4] ++ [frame 6])
      (tones 100 hostReady (heldWith [440, 10, TONES_REPEAT]))).gb_channel = some c ∧
      c.use = true ∧ c.total = some (22050 / stripVolume 440)) ∧
    (runTicks ([frame 10, frame 4] ++ [frame 6])
      (tones 100 hostReady (heldWith [440, 10, TONES_REPEAT]))).gb_tone_duration
      = ((10 : Nat) : Int) ∧
    playing (runTicks ([frame 10, frame 4] ++ [frame 6])
      (tones 100 hostReady (heldWith [440, 10, TONES_REPEAT]))) = true ∧
    (∀ ticks, playing (runTicks ticks
      (tones 100 hostReady (heldWith [440, 10, TONES_REPEAT]))) = true) :=
  repeat_loops_forever 100 440 10 (heldWith [440, 10, TONES_REPEAT]) idleChannel hostReady
    [frame 10, frame 4] (frame 6) rfl ⟨rfl, rfl, rfl, trivial⟩
    (by unfold RealTone; decide) (by decide) (by decide)

/-! ## Volume modes -/

theorem volumeMode_flags (m : Nat) (s : State) :
    (volumeMode m s).forceNormVol = decide (m % 256 = VOLUME_ALWAYS_NORMAL) ∧
    (volumeMode m s).forceHighVol =
      (decide (m % 256 = VOLUME_ALWAYS_HIGH) && !decide (m % 256 = VOLUME_ALWAYS_NORMAL)) := by
  unfold volumeMode
  by_cases h1 : m % 256 = VOLUME_ALWAYS_NORMAL
  · simp [h1]
  · by_cases h2 : m % 256 = VOLUME_ALWAYS_HIGH
    · rw [if_neg h1, if_pos h2, decide_eq_false h1, decide_eq_true h2]
      exact ⟨rfl, rfl⟩
    · rw [if_neg h1, if_neg h2, decide_eq_false h1, decide_eq_false h2]
      exact ⟨rfl, rfl⟩

theorem volumeMode_frame (m : Nat) (s : State) :
    (volumeMode m s).mem = s.mem ∧ (volumeMode m s).tonesIndex = s.tonesIndex ∧
    (volumeMode m s).tonesStart = s.tonesStart ∧
    (volumeMode m s).toneSequence = s.toneSequence ∧
    (volumeMode m s).gb_channel = s.gb_channel ∧
    (volumeMode m s).tonesPlaying = s.tonesPlaying ∧
    (volumeMode m s).gb_tone_duration = s.gb_tone_duration := by
  unfold volumeMode
  split
  · exact ⟨rfl, rfl, rfl, rfl, rfl, rfl, rfl⟩
  · split <;> exact ⟨rfl, rfl, rfl, rfl, rfl, rfl, rfl⟩

/-- C7: an audible tone (stripped frequency positive, output enabled, channel
held) advanced right after `volumeMode m`: with `m = VOLUME_ALWAYS_HIGH` the
amplitude is `0x30`, with `m = VOLUME_ALWAYS_NORMAL` it is `12`, whatever the
tone's high-volume bit; with any other `m` it is `0x30` when the tone word has
the bit `0x8000` set and `12` when it has not. -/
theorem volumeMode_decides_amplitude (m f : Nat) (h : Host) (s : State) (c0 : Sound_Channel)
    (hm : m < 256)
    (hch : s.gb_channel = some c0) (ho : h.outputEnabled = true)
    (hw : s.mem s.tonesIndex = f) (hf : RealTone f) :
    ∃ c, (nextTone h (volumeMode m s)).gb_channel = some c ∧
      (m = VOLUME_ALWAYS_HIGH → c.amplitude = 0x30) ∧
      (m = VOLUME_ALWAYS_NORMAL → c.amplitude = 12) ∧
      (m ≠ VOLUME_ALWAYS_HIGH → m ≠ VOLUME_ALWAYS_NORMAL →
        c.amplitude = if hasHighVolume f then 0x30 else 12) := by
  obtain ⟨hlt, hE, hR, hpos⟩ := hf
  obtain ⟨e1, e2, -, -, e3, -, -⟩ := volumeMode_frame m s
  obtain ⟨g1, g2⟩ := volumeMode_flags m s
  rw [Nat.mod_eq_of_lt hm] at g1 g2
  have hw2 : (volumeMode m s).mem (volumeMode m s).tonesIndex % 65536 = f := by
    rw [e1, e2, hw]
    exact Nat.mod_eq_of_lt hlt
  have e := nextTone_tone_held h (volumeMode m s) c0 (by rw [hw2]; exact hE)
    (by rw [hw2]; exact hR) (by rw [hw2]; exact hpos) (e3.trans hch)
  rw [e, hw2]
  refine ⟨_, rfl, ?_, ?_, ?_⟩
  · intro hh
    have hn : m ≠ VOLUME_ALWAYS_NORMAL := by rw [hh]; decide
    rw [decide_eq_false hn] at g1
    rw [decide_eq_true hh, decide_eq_false hn] at g2
    rw [programmed_amplitude_audible h _ c0 f hpos ho]
    simp [highVolOf, g1, g2]
  · intro hn
    rw [decide_eq_true hn] at g1
    rw [programmed_amplitude_audible h _ c0 f hpos ho]
    simp [highVolOf, g1]
  · intro hh hn
    rw [decide_eq_false hn] at g1
    rw [decide_eq_false hh, decide_eq_false hn] at g2
    rw [programmed_amplitude_audible h _ c0 f hpos ho]
    simp [highVolOf, g1, g2]

/-- C7, at a concrete input: the tone word 440 (high-volume bit clear) at
address 100, advanced after `volumeMode VOLUME_ALWAYS_HIGH`. -/
theorem volumeMode_decides_amplitude_witness :
    ∃ c, (nextTone hostReady (volumeMode VOLUME_ALWAYS_HIGH
        { heldWith [440, 10, TONES_END] with tonesStart := 100, tonesIndex := 100 })).gb_channel
        = some c ∧
      (VOLUME_ALWAYS_HIGH = VOLUME_ALWAYS_HIGH → c.amplitude = 0x30) ∧
      (VOLUME_ALWAYS_HIGH = VOLUME_ALWAYS_NORMAL → c.amplitude = 12) ∧
      (VOLUME_ALWAYS_HIGH ≠ VOLUME_ALWAYS_HIGH → VOLUME_ALWAYS_HIGH ≠ VOLUME_ALWAYS_NORMAL →
        c.amplitude = if hasHighVolume 440 then 0x30 else 12) :=
  volumeMode_decides_amplitude VOLUME_ALWAYS_HIGH 440 hostReady
    { heldWith [440, 10, TONES_END] with tonesStart := 100, tonesIndex := 100 } idleChannel
    (by decide) rfl rfl rfl (by unfold RealTone; decide)

/-! ## Acquisition failure and rests -/

/-- C8 fails on the code: `tone(440, 100)` on the fresh sequencer when the
host has no free channel leaves no channel held, yet `playing()` is true:
`tonesPlaying` is set before the acquisition and the failure path returns
without resetting it. -/
theorem acquire_fail_still_playing :
    fresh.gb_channel = none ∧ hostBusy.play = none ∧
    playing (tone 440 100 hostBusy fresh) = true ∧
    (tone 440 100 hostBusy fresh).gb_channel = none ∧
    (tone 440 100 hostBusy fresh).gb_handler = false := by
  decide

/-- C9 fails on the code: `tone(0, 100)` with the host handing out a channel
reaches `22050 / freq` with the stripped frequency 0; the division has no
result and the run stops there. -/
theorem rest_divides_by_zero :
    stripVolume 0 = 0 ∧
    checkedDiv 22050 (stripVolume 0) = none ∧
    fresh.halted = false ∧
    (tone 0 100 hostReady fresh).halted = true := by
  decide

/-- C10 fails on the code, by the defect of C9: `tone(440, 10)` leaves the
amplitude 12 and the counter 10; `tone(0, 50)` after it, the channel held,
sets `tonesPlaying` and stops at `22050 / 0`, before the amplitude is
stored: the amplitude is still 12, not 0, and the counter still 10. -/
theorem rest_stops_before_amplitude :
    (tone 440 10 hostReady fresh).gb_channel.map (fun c => c.amplitude) = some 12 ∧
    (tone 440 10 hostReady fresh).halted = false ∧
    (tone 0 50 hostReady (tone 440 10 hostReady fresh)).halted = true ∧
    playing (tone 0 50 hostReady (tone 440 10 hostReady fresh)) = true ∧
    (tone 0 50 hostReady (tone 440 10 hostReady fresh)).toneSilent = true ∧
    (tone 0 50 hostReady (tone 440 10 hostReady fresh)).gb_channel.map
      (fun c => c.amplitude) = some 12 ∧
    (tone 0 50 hostReady (tone 440 10 hostReady fresh)).gb_tone_duration = 10 := by
  decide

/-! ## The frame tick, case by case -/

/-- C11: with a channel held, the tick advances (its result is `nextTone` run
on the counted-down state) when `counter - e ≤ 0`, and otherwise it only
counts down, the cursor staying where it was; so it advances exactly when
`counter - e ≤ 0`.  In particular it advances on the tick where `e` equals
the counter, and with the counter at 0 (after a tone of duration 0) on the
next tick for every `e ≥ 0`. -/
theorem tick_advances_when_exhausted (h : Host) (s : State) (c : Sound_Channel)
    (hch : s.gb_channel = some c) :
    (s.gb_tone_duration - h.timePerFrame ≤ 0 →
      gb_updateTones h s =
        nextTone h { s with gb_tone_duration := s.gb_tone_duration - h.timePerFrame }) ∧
    (¬ (s.gb_tone_duration - h.timePerFrame ≤ 0) →
      gb_updateTones h s =
        { s with gb_tone_duration := s.gb_tone_duration - h.timePerFrame } ∧
      (gb_updateTones h s).tonesIndex = s.tonesIndex) ∧
    (h.timePerFrame = s.gb_tone_duration →
      gb_updateTones h s = nextTone h { s with gb_tone_duration := 0 }) ∧
    (s.gb_tone_duration = 0 → 0 ≤ h.timePerFrame →
      gb_updateTones h s = nextTone h { s with gb_tone_duration := - h.timePerFrame }) := by
  refine ⟨fun hexp => gb_updateTones_expired h s c hch hexp, fun hn => ?_, fun he => ?_,
    fun hz hnn => ?_⟩
  · have hpos : 0 < s.gb_tone_duration - h.timePerFrame := by omega
    rw [gb_updateTones_pending h s c hch hpos]
    exact ⟨rfl, rfl⟩
  · rw [gb_updateTones_expired h s c hch (by omega)]
    have e0 : s.gb_tone_duration - h.timePerFrame = 0 := by omega
    rw [e0]
  · rw [gb_updateTones_expired h s c hch (by omega)]
    have e0 : s.gb_tone_duration - h.timePerFrame = - h.timePerFrame := by omega
    rw [e0]

/-- C11, at a concrete input: `tone(440, 10)` with a channel held, then a tick
of exactly 10 units. -/
theorem tick_advances_when_exhausted_witness :
    ((tone 440 10 hostReady (heldWith [])).gb_tone_duration - (frame 10).timePerFrame ≤ 0 →
      gb_updateTones (frame 10) (tone 440 10 hostReady (heldWith [])) =
        nextTone (frame 10)
          { tone 440 10 hostReady (heldWith []) with
            gb_tone_duration :=
              (tone 440 10 hostReady (heldWith [])).gb_tone_duration
                - (frame 10).timePerFrame }) ∧
    (¬ ((tone 440 10 hostReady (heldWith [])).gb_tone_duration
          - (frame 10).timePerFrame ≤ 0) →
      gb_updateTones (frame 10) (tone 440 10 hostReady (heldWith [])) =
        { tone 440 10 hostReady (heldWith []) with
          gb_tone_duration :=
            (tone 440 10 hostReady (heldWith [])).gb_tone_duration
              - (frame 10).timePerFrame } ∧
      (gb_updateTones (frame 10) (tone 440 10 hostReady (heldWith []))).tonesIndex =
        (tone 440 10 hostReady (heldWith [])).tonesIndex) ∧
    ((frame 10).timePerFrame = (tone 440 10 hostReady (heldWith [])).gb_tone_duration →
      gb_updateTones (frame 10) (tone 440 10 hostReady (heldWith [])) =
        nextTone (frame 10)
          { tone 440 10 hostReady (heldWith []) with gb_tone_duration := 0 }) ∧
    ((tone 440 10 hostReady (heldWith [])).gb_tone_duration = 0 →
      0 ≤ (frame 10).timePerFrame →
      gb_updateTones (frame 10) (tone 440 10 hostReady (heldWith [])) =
        nextTone (frame 10)
          { tone 440 10 hostReady (heldWith []) with
            gb_tone_duration := - (frame 10).timePerFrame }) :=
  tick_advances_when_exhausted (frame 10) (tone 440 10 hostReady (heldWith []))
    (programmed hostReady (heldWith []) idleChannel 440) (by decide)

/-- C15: with no channel held the tick is `noTone` and nothing else: the
result is the state with `tonesPlaying` cleared, so `playing()` is false and
the counter, the cursor, the sequence and the volume flags are as before,
whatever the elapsed value. -/
theorem tick_without_channel_only_stops (h : Host) (s : State)
    (hch : s.gb_channel = none) :
    gb_updateTones h s = { s with tonesPlaying := false } ∧
    playing (gb_updateTones h s) = false ∧
    (gb_updateTones h s).gb_tone_duration = s.gb_tone_duration ∧
    (gb_updateTones h s).tonesIndex = s.tonesIndex ∧
    (gb_updateTones h s).tonesStart = s.tonesStart ∧
    (gb_updateTones h s).mem = s.mem ∧
    (gb_updateTones h s).forceHighVol = s.forceHighVol ∧
    (gb_updateTones h s).forceNormVol = s.forceNormVol ∧
    (gb_updateTones h s).gb_channel = none := by
  have e : gb_updateTones h s = { s with tonesPlaying := false } := by
    rw [gb_updateTones_no_channel h s hch]
    simp [noTone, hch]
  rw [e]
  exact ⟨rfl, rfl, rfl, rfl, rfl, rfl, rfl, rfl, hch⟩

/-- C15, at a concrete input: a tick of 7 units on the state left by a failed
acquisition (playing, no channel). -/
theorem tick_without_channel_only_stops_witness :
    gb_updateTones (frame 7) (tone 440 100 hostBusy fresh) =
      { tone 440 100 hostBusy fresh with tonesPlaying := false } ∧
    playing (gb_updateTones (frame 7) (tone 440 100 hostBusy fresh)) = false ∧
    (gb_updateTones (frame 7) (tone 440 100 hostBusy fresh)).gb_tone_duration =
      (tone 440 100 hostBusy fresh).gb_tone_duration ∧
    (gb_updateTones (frame 7) (tone 440 100 hostBusy fresh)).tonesIndex =
      (tone 440 100 hostBusy fresh).tonesIndex ∧
    (gb_updateTones (frame 7) (tone 440 100 hostBusy fresh)).tonesStart =
      (tone 440 100 hostBusy fresh).tonesStart ∧
    (gb_updateTones (frame 7) (tone 440 100 hostBusy fresh)).mem =
      (tone 440 100 hostBusy fresh).mem ∧
    (gb_updateTones (frame 7) (tone 440 100 hostBusy fresh)).forceHighVol =
      (tone 440 100 hostBusy fresh).forceHighVol ∧
    (gb_updateTones (frame 7) (tone 440 100 hostBusy fresh)).forceNormVol =
      (tone 440 100 hostBusy fresh).forceNormVol ∧
    (gb_updateTones (frame 7) (tone 440 100 hostBusy fresh)).gb_channel = none :=
  tick_without_channel_only_stops (frame 7) (tone 440 100 hostBusy fresh) (by decide)

/-- C16: with a channel held, a tick that leaves `counter - e` positive
changes the remaining-duration counter to `counter - e` and nothing else:
cursor, playing flag, volume flags, sequence and channel are as before. -/
theorem pending_tick_only_counts_down (h : Host) (s : State) (c : Sound_Channel)
    (hch : s.gb_channel = some c)
    (hpos : 0 < s.gb_tone_duration - h.timePerFrame) :
    gb_updateTones h s = { s with gb_tone_duration := s.gb_tone_duration - h.timePerFrame } ∧
    (gb_updateTones h s).gb_tone_duration = s.gb_tone_duration - h.timePerFrame ∧
    (gb_updateTones h s).tonesIndex = s.tonesIndex ∧
    (gb_updateTones h s).tonesStart = s.tonesStart ∧
    (gb_updateTones h s).tonesPlaying = s.tonesPlaying ∧
    (gb_updateTones h s).forceHighVol = s.forceHighVol ∧
    (gb_updateTones h s).forceNormVol = s.forceNormVol ∧
    (gb_updateTones h s).mem = s.mem ∧
    (gb_updateTones h s).gb_channel = some c := by
  rw [gb_updateTones_pending h s c hch hpos]
  exact ⟨rfl, rfl, rfl, rfl, rfl, rfl, rfl, rfl, hch⟩

/-- C16, at a concrete input: `tone(440, 10)` with a channel held, then a tick
of 4 units. -/
theorem pending_tick_only_counts_down_witness :
    gb_updateTones (frame 4) (tone 440 10 hostReady (heldWith [])) =
      { tone 440 10 hostReady (heldWith []) with
        gb_tone_duration :=
          (tone 440 10 hostReady (heldWith [])).gb_tone_duration - (frame 4).timePerFrame } ∧
    (gb_updateTones (frame 4) (tone 440 10 hostReady (heldWith []))).gb_tone_duration =
      (tone 440 10 hostReady (heldWith [])).gb_tone_duration - (frame 4).timePerFrame ∧
    (gb_updateTones (frame 4) (tone 440 10 hostReady (heldWith []))).tonesIndex =
      (tone 440 10 hostReady (heldWith [])).tonesIndex ∧
    (gb_updateTones (frame 4) (tone 440 10 hostReady (heldWith []))).tonesStart =
      (tone 440 10 hostReady (heldWith [])).tonesStart ∧
    (gb_updateTones (frame 4) (tone 440 10 hostReady (heldWith []))).tonesPlaying =
      (tone 440 10 hostReady (heldWith [])).tonesPlaying ∧
    (gb_updateTones (frame 4) (tone 440 10 hostReady (heldWith []))).forceHighVol =
      (tone 440 10 hostReady (heldWith [])).forceHighVol ∧
    (gb_updateTones (frame 4) (tone 440 10 hostReady (heldWith []))).forceNormVol =
      (tone 440 10 hostReady (heldWith [])).forceNormVol ∧
    (gb_updateTones (frame 4) (tone 440 10 hostReady (heldWith []))).mem =
      (tone 440 10 hostReady (heldWith [])).mem ∧
    (gb_updateTones (frame 4) (tone 440 10 hostReady (heldWith []))).gb_channel =
      some (programmed hostReady (heldWith []) idleChannel 440) :=
  pending_tick_only_counts_down (frame 4) (tone 440 10 hostReady (heldWith []))
    (programmed hostReady (heldWith []) idleChannel 440) (by decide) (by decide)

/-! ## What the volume mode and an advance leave alone -/

/-- C12: `volumeMode m` is not retroactive: for every state and every `m` it
changes nothing but the two force flags; the channel (amplitude, repeat
count, index, enable flag), the playing flag, the cursor, the sequence and
the remaining-duration counter are as before. -/
theorem volumeMode_only_sets_force_flags (m : Nat) (s : State) :
    volumeMode m s =
      { s with
        forceNormVol := (volumeMode m s).forceNormVol
        forceHighVol := (volumeMode m s).forceHighVol } ∧
    (volumeMode m s).gb_channel = s.gb_channel ∧
    playing (volumeMode m s) = playing s ∧
    (volumeMode m s).tonesIndex = s.tonesIndex ∧
    (volumeMode m s).tonesStart = s.tonesStart ∧
    (volumeMode m s).mem = s.mem ∧
    (volumeMode m s).gb_tone_duration = s.gb_tone_duration := by
  obtain ⟨e1, e2, e3, -, e4, e5, e6⟩ := volumeMode_frame m s
  refine ⟨?_, e4, e5, e2, e3, e1, e6⟩
  unfold volumeMode
  split
  · rfl
  · split <;> rfl

/-- The stripped frequency is the word with bit 15 masked out. -/
theorem stripVolume_eq_and (f : Nat) : stripVolume f = f &&& 0x7FFF := rfl

/-- An advance never writes to the memory. -/
theorem nextTone_mem (h : Host) (s : State) : (nextTone h s).mem = s.mem := by
  have hp : ∀ (f : Nat) (t : State), (programTone h f t).mem = t.mem :=
    fun f t => (programTone_keeps h f t).1
  by_cases hE : s.mem s.tonesIndex % 65536 = TONES_END
  · rw [nextTone_end h s hE]
    cases hc : s.gb_channel <;> simp [noTone, hc]
  · by_cases hR : s.mem s.tonesIndex % 65536 = TONES_REPEAT
    · rw [nextTone_repeat h s hR, hp]
    · rw [nextTone_tone h s hE hR, hp]

/-- C14: for a tone word `f` that is neither END nor REPEAT with
`f & 0x7FFF > 0`, under the cursor with a channel held, `nextTone` leaves the
channel enabled, of pattern type, with index 0, repeat count
`22050 / (f & 0x7FFF)` and amplitude 0, 12 or `0x30`; `playing()` is true and
the remaining-duration counter is the next word read as a 16-bit value, so it
lies between 0 and 65535. -/
theorem nextTone_programs_channel (h : Host) (s : State) (c0 : Sound_Channel) (f : Nat)
    (hch : s.gb_channel = some c0)
    (hw : s.mem s.tonesIndex = f) (hf : RealTone f) :
    (∃ c, (nextTone h s).gb_channel = some c ∧ c.use = true ∧ c.index = 0 ∧
      c.type = Sound_Channel_Type.pattern ∧
      c.total = some (22050 / (f &&& 0x7FFF)) ∧
      (c.amplitude = 0 ∨ c.amplitude = 12 ∨ c.amplitude = 0x30)) ∧
    playing (nextTone h s) = true ∧
    (nextTone h s).gb_tone_duration = ((s.mem (s.tonesIndex + 1) % 65536 : Nat) : Int) ∧
    0 ≤ (nextTone h s).gb_tone_duration ∧
    (nextTone h s).gb_tone_duration ≤ 65535 := by
  obtain ⟨hlt, hE, hR, hpos⟩ := hf
  have hw2 : s.mem s.tonesIndex % 65536 = f := by rw [hw]; exact Nat.mod_eq_of_lt hlt
  rw [nextTone_tone_held h s c0 (by rw [hw2]; exact hE) (by rw [hw2]; exact hR)
    (by rw [hw2]; exact hpos) hch, hw2]
  have hmod : s.mem (s.tonesIndex + 1) % 65536 < 65536 := Nat.mod_lt _ (by decide)
  refine ⟨⟨_, rfl, rfl, rfl, rfl, ?_, ?_⟩, rfl, rfl, ?_, ?_⟩
  · show checkedDiv 22050 (stripVolume f) = _
    rw [checkedDiv_pos _ _ hpos, stripVolume_eq_and]
  · show (if silentOf h f then 0 else if highVolOf s f then 0x30 else 12) = 0 ∨
      (if silentOf h f then 0 else if highVolOf s f then 0x30 else 12) = 12 ∨
      (if silentOf h f then 0 else if highVolOf s f then 0x30 else 12) = 0x30
    cases silentOf h f <;> cases highVolOf s f <;> simp
  · show (0 : Int) ≤ ((s.mem (s.tonesIndex + 1) % 65536 : Nat) : Int)
    omega
  · show ((s.mem (s.tonesIndex + 1) % 65536 : Nat) : Int) ≤ 65535
    omega

/-- C14, at a concrete input: the words `[880, 25, END]` at address 100 under
the cursor, a channel held. -/
theorem nextTone_programs_channel_witness :
    (∃ c, (nextTone hostReady
        { heldWith [880, 25, TONES_END] with tonesStart := 100, tonesIndex := 100 }).gb_channel
        = some c ∧ c.use = true ∧ c.index = 0 ∧
      c.type = Sound_Channel_Type.pattern ∧
      c.total = some (22050 / (880 &&& 0x7FFF)) ∧
      (c.amplitude = 0 ∨ c.amplitude = 12 ∨ c.amplitude = 0x30)) ∧
    playing (nextTone hostReady
        { heldWith [880, 25, TONES_END] with tonesStart := 100, tonesIndex := 100 }) = true ∧
    (nextTone hostReady
        { heldWith [880, 25, TONES_END] with tonesStart := 100, tonesIndex := 100
          }).gb_tone_duration =
      ((({ heldWith [880, 25, TONES_END] with tonesStart := 100, tonesIndex := 100 } : State).mem
        (({ heldWith [880, 25, TONES_END] with tonesStart := 100, tonesIndex := 100 }
          : State).tonesIndex + 1) % 65536 : Nat) : Int) ∧
    0 ≤ (nextTone hostReady
        { heldWith [880, 25, TONES_END] with tonesStart := 100, tonesIndex := 100
          }).gb_tone_duration ∧
    (nextTone hostReady
        { heldWith [880, 25, TONES_END] with tonesStart := 100, tonesIndex := 100
          }).gb_tone_duration ≤ 65535 :=
  nextTone_programs_channel hostReady
    { heldWith [880, 25, TONES_END] with tonesStart := 100, tonesIndex := 100 } idleChannel 880
    rfl rfl (by unfold RealTone; decide)

/-- C17: an advance over a word that is neither END nor REPEAT moves the
cursor forward by exactly two slots, whatever the stripped frequency (audible
or rest), whatever `outputEnabled()` answers and whether or not a channel is
at hand; and no advance, over any word, writes to the memory, so the stored
frequency is as before. -/
theorem advance_moves_cursor_by_two (h : Host) (s : State)
    (hE : s.mem s.tonesIndex % 65536 ≠ TONES_END)
    (hR : s.mem s.tonesIndex % 65536 ≠ TONES_REPEAT) :
    (nextTone h s).tonesIndex = s.tonesIndex + 2 ∧
    (nextTone h s).tonesStart = s.tonesStart ∧
    (nextTone h s).mem = s.mem ∧
    (∀ (k : Host) (t : State), (nextTone k t).mem = t.mem) := by
  obtain ⟨-, k2, k3, -⟩ := programTone_keeps h (s.mem s.tonesIndex % 65536)
    { s with tonesIndex := s.tonesIndex + 1, tonesPlaying := true }
  refine ⟨?_, ?_, nextTone_mem h s, nextTone_mem⟩
  · rw [nextTone_tone h s hE hR, k2]
  · rw [nextTone_tone h s hE hR, k3]

/-- C17, at a concrete input: a rest `[0, 50, END]` at address 100, output
muted, a channel held. -/
theorem advance_moves_cursor_by_two_witness :
    (nextTone ⟨false, none, 16⟩
      { heldWith [0, 50, TONES_END] with tonesStart := 100, tonesIndex := 100 }).tonesIndex =
        ({ heldWith [0, 50, TONES_END] with tonesStart := 100, tonesIndex := 100 }
          : State).tonesIndex + 2 ∧
    (nextTone ⟨false, none, 16⟩
      { heldWith [0, 50, TONES_END] with tonesStart := 100, tonesIndex := 100 }).tonesStart =
        ({ heldWith [0, 50, TONES_END] with tonesStart := 100, tonesIndex := 100 }
          : State).tonesStart ∧
    (nextTone ⟨false, none, 16⟩
      { heldWith [0, 50, TONES_END] with tonesStart := 100, tonesIndex := 100 }).mem =
        ({ heldWith [0, 50, TONES_END] with tonesStart := 100, tonesIndex := 100 } : State).mem ∧
    (∀ (k : Host) (t : State), (nextTone k t).mem = t.mem) :=
  advance_moves_cursor_by_two ⟨false, none, 16⟩
    { heldWith [0, 50, TONES_END] with tonesStart := 100, tonesIndex := 100 }
    (by decide) (by decide)

/-! ## A sequence that starts with REPEAT -/

/-- C18: with a channel held, when the word under the cursor is REPEAT and
the first slot of the sequence is REPEAT too, `nextTone` does not stop: it
takes the re-read `0x8001` for a tone with the high-volume bit set and
stripped frequency 1, so the repeat count is 22050 and the tone is high
unless normal volume is forced; the duration comes from slot 1, the cursor
ends at start + 2 and `playing()` is true.  A play call on a sequence whose
first slot is REPEAT runs `nextTone` in such a state, the cursor on the
first slot. -/
theorem repeat_reread_not_checked (h : Host) (s : State) (c0 : Sound_Channel)
    (hch : s.gb_channel = some c0)
    (hcur : s.mem s.tonesIndex % 65536 = TONES_REPEAT)
    (hfirst : s.mem s.tonesStart % 65536 = TONES_REPEAT) :
    playing (nextTone h s) = true ∧
    (nextTone h s).tonesIndex = s.tonesStart + 2 ∧
    (nextTone h s).gb_tone_duration = ((s.mem (s.tonesStart + 1) % 65536 : Nat) : Int) ∧
    hasHighVolume TONES_REPEAT = true ∧ stripVolume TONES_REPEAT = 1 ∧
    (nextTone h s).toneHighVol = !s.forceNormVol ∧
    (∃ c, (nextTone h s).gb_channel = some c ∧ c.use = true ∧ c.total = some 22050 ∧
      c.amplitude =
        if h.outputEnabled then (if s.forceNormVol then 12 else 0x30) else 0) := by
  have hb : hasHighVolume TONES_REPEAT = true := by decide
  have hs1 : stripVolume TONES_REPEAT = 1 := by decide
  rw [nextTone_repeat_held h s c0 hcur (by rw [hfirst, hs1]; decide) hch, hfirst]
  refine ⟨rfl, rfl, rfl, hb, hs1, ?_, ⟨_, rfl, rfl, ?_, ?_⟩⟩
  · show highVolOf s TONES_REPEAT = !s.forceNormVol
    simp [highVolOf, hb]
  · show checkedDiv 22050 (stripVolume TONES_REPEAT) = some 22050
    rw [hs1]
    rfl
  · show (if silentOf h TONES_REPEAT then 0 else if highVolOf s TONES_REPEAT then 0x30 else 12)
      = if h.outputEnabled then (if s.forceNormVol then 12 else 0x30) else 0
    cases ho : h.outputEnabled <;> cases hn : s.forceNormVol <;>
      simp [silentOf, highVolOf, hb, hs1, ho, hn]

/-- C18, at a concrete input: the sequence `[REPEAT, 7, END]` at address 100,
played with a channel held. -/
theorem repeat_reread_not_checked_witness :
    playing (tones 100 hostReady (heldWith [TONES_REPEAT, 7, TONES_END])) = true ∧
    (tones 100 hostReady (heldWith [TONES_REPEAT, 7, TONES_END])).tonesIndex = 100 + 2 ∧
    (tones 100 hostReady (heldWith [TONES_REPEAT, 7, TONES_END])).gb_tone_duration = 7 ∧
    (∃ c, (tones 100 hostReady (heldWith [TONES_REPEAT, 7, TONES_END])).gb_channel = some c ∧
      c.use = true ∧ c.total = some 22050 ∧ c.amplitude = 0x30) := by
  have w := repeat_reread_not_checked hostReady
    { heldWith [TONES_REPEAT, 7, TONES_END] with tonesStart := 100, tonesIndex := 100 }
    idleChannel rfl (by decide) (by decide)
  obtain ⟨w1, w2, w3, -, -, -, ⟨c, w4, w5, w6, w7⟩⟩ := w
  exact ⟨w1, w2, w3, c, w4, w5, w6, w7⟩

/-! ## Invariants of the reachable states -/

theorem noTone_frame (s : State) :
    (noTone s).mem = s.mem ∧ (noTone s).toneSequence = s.toneSequence ∧
    (noTone s).forceHighVol = s.forceHighVol ∧ (noTone s).forceNormVol = s.forceNormVol ∧
    (noTone s).halted = s.halted := by
  cases hc : s.gb_channel <;> simp [noTone, hc]

theorem volumeMode_halted (m : Nat) (s : State) : (volumeMode m s).halted = s.halted := by
  unfold volumeMode
  split
  · rfl
  · split <;> rfl

/-- When `programTone` returns without stopping at the division and the
playing flag was set before it, a held channel is enabled afterwards. -/
theorem programTone_enable (h : Host) (f : Nat) (t : State)
    (hrun : (programTone h f t).halted = false) (hp : t.tonesPlaying = true) :
    EnableMatchesPlaying (programTone h f t) := by
  rcases Option.eq_none_or_eq_some t.gb_channel with hc | ⟨c, hc⟩
  · rcases Option.eq_none_or_eq_some h.play with hq | ⟨c, hq⟩
    · rw [programTone_fail h f t hc hq]
      intro c1 h1
      cases h1
    · by_cases hz : stripVolume f = 0
      · rw [programTone_acquire_rest h f t c hz hc hq] at hrun
        cases hrun
      · rw [programTone_acquire h f t c (by omega) hc hq]
        intro c1 h1
        have e : c1 = programmed h t c f := (Option.some.inj h1).symm
        rw [e]
        exact hp.symm
  · by_cases hz : stripVolume f = 0
    · rw [programTone_held_rest h f t c hz hc] at hrun
      cases hrun
    · rw [programTone_held h f t c (by omega) hc]
      intro c1 h1
      have e : c1 = programmed h t c f := (Option.some.inj h1).symm
      rw [e]
      exact hp.symm

theorem noTone_enable_matches (s : State) : EnableMatchesPlaying (noTone s) := by
  intro c hc
  cases hs : s.gb_channel with
  | none => simp [noTone, hs] at hc
  | some c0 =>
    simp [noTone, hs] at hc
    rw [← hc]
    simp [noTone, hs]

/-- An advance leaves the memory, the buffer address and the override flags
alone, and when it returns a held channel is enabled exactly when playing. -/
theorem nextTone_frame (h : Host) (s : State) :
    (nextTone h s).mem = s.mem ∧ (nextTone h s).toneSequence = s.toneSequence ∧
    (nextTone h s).forceHighVol = s.forceHighVol ∧
    (nextTone h s).forceNormVol = s.forceNormVol ∧
    ((nextTone h s).halted = false → EnableMatchesPlaying (nextTone h s)) := by
  by_cases hE : s.mem s.tonesIndex % 65536 = TONES_END
  · rw [nextTone_end h s hE]
    obtain ⟨a, b, c, d, -⟩ := noTone_frame { s with tonesIndex := s.tonesIndex + 1 }
    exact ⟨a, b, c, d, fun _ => noTone_enable_matches _⟩
  · by_cases hR : s.mem s.tonesIndex % 65536 = TONES_REPEAT
    · rw [nextTone_repeat h s hR]
      obtain ⟨a, -, -, b, c, d, -, -⟩ := programTone_keeps h (s.mem s.tonesStart % 65536)
        { s with tonesIndex := s.tonesStart + 1, tonesPlaying := true }
      exact ⟨a, b, c, d, fun hrun => programTone_enable h _ _ hrun rfl⟩
    · rw [nextTone_tone h s hE hR]
      obtain ⟨a, -, -, b, c, d, -, -⟩ := programTone_keeps h (s.mem s.tonesIndex % 65536)
        { s with tonesIndex := s.tonesIndex + 1, tonesPlaying := true }
      exact ⟨a, b, c, d, fun hrun => programTone_enable h _ _ hrun rfl⟩

/-- A tick leaves the memory, the buffer address and the override flags
alone, and when it returns it keeps a held channel enabled exactly when
playing. -/
theorem gb_updateTones_frame (h : Host) (s : State) :
    (gb_updateTones h s).mem = s.mem ∧ (gb_updateTones h s).toneSequence = s.toneSequence ∧
    (gb_updateTones h s).forceHighVol = s.forceHighVol ∧
    (gb_updateTones h s).forceNormVol = s.forceNormVol ∧
    ((gb_updateTones h s).halted = false → EnableMatchesPlaying s →
      EnableMatchesPlaying (gb_updateTones h s)) := by
  rcases Option.eq_none_or_eq_some s.gb_channel with hc | ⟨c, hc⟩
  · rw [gb_updateTones_no_channel h s hc]
    obtain ⟨a, b, c, d, -⟩ := noTone_frame s
    exact ⟨a, b, c, d, fun _ _ => noTone_enable_matches s⟩
  · by_cases hexp : s.gb_tone_duration - h.timePerFrame ≤ 0
    · rw [gb_updateTones_expired h s c hc hexp]
      obtain ⟨a, b, c, d, e⟩ := nextTone_frame h
        { s with gb_tone_duration := s.gb_tone_duration - h.timePerFrame }
      exact ⟨a, b, c, d, fun hrun _ => e hrun⟩
    · rw [gb_updateTones_pending h s c hc (by omega)]
      exact ⟨rfl, rfl, rfl, rfl, fun _ hi => hi⟩

theorem tone_frame (f d : Nat) (h : Host) (s : State) :
    (tone f d h s).mem =
      store (store (store s.mem (s.toneSequence + 0) f) (s.toneSequence + 1) d)
        (s.toneSequence + 2) TONES_END ∧
    (tone f d h s).toneSequence = s.toneSequence ∧
    (tone f d h s).forceHighVol = s.forceHighVol ∧
    (tone f d h s).forceNormVol = s.forceNormVol ∧
    ((tone f d h s).halted = false → EnableMatchesPlaying (tone f d h s)) :=
  nextTone_frame h
    { s with
      tonesStart := s.toneSequence
      tonesIndex := s.toneSequence
      mem := store (store (store s.mem (s.toneSequence + 0) f) (s.toneSequence + 1) d)
              (s.toneSequence + 2) TONES_END }

theorem tone2_frame (f1 d1 f2 d2 : Nat) (h : Host) (s : State) :
    (tone2 f1 d1 f2 d2 h s).mem =
      store (store (store (store (store s.mem (s.toneSequence + 0) f1)
        (s.toneSequence + 1) d1) (s.toneSequence + 2) f2) (s.toneSequence + 3) d2)
        (s.toneSequence + 4) TONES_END ∧
    (tone2 f1 d1 f2 d2 h s).toneSequence = s.toneSequence ∧
    (tone2 f1 d1 f2 d2 h s).forceHighVol = s.forceHighVol ∧
    (tone2 f1 d1 f2 d2 h s).forceNormVol = s.forceNormVol ∧
    ((tone2 f1 d1 f2 d2 h s).halted = false →
      EnableMatchesPlaying (tone2 f1 d1 f2 d2 h s)) :=
  nextTone_frame h
    { s with
      tonesStart := s.toneSequence
      tonesIndex := s.toneSequence
      mem := store (store (store (store (store s.mem (s.toneSequence + 0) f1)
        (s.toneSequence + 1) d1) (s.toneSequence + 2) f2) (s.toneSequence + 3) d2)
        (s.toneSequence + 4) TONES_END }

theorem tone3_frame (f1 d1 f2 d2 f3 d3 : Nat) (h : Host) (s : State) :
    (tone3 f1 d1 f2 d2 f3 d3 h s).mem =
      store (store (store (store (store (store s.mem (s.toneSequence + 0) f1)
        (s.toneSequence + 1) d1) (s.toneSequence + 2) f2) (s.toneSequence + 3) d2)
        (s.toneSequence + 4) f3) (s.toneSequence + 5) d3 ∧
    (tone3 f1 d1 f2 d2 f3 d3 h s).toneSequence = s.toneSequence ∧
    (tone3 f1 d1 f2 d2 f3 d3 h s).forceHighVol = s.forceHighVol ∧
    (tone3 f1 d1 f2 d2 f3 d3 h s).forceNormVol = s.forceNormVol ∧
    ((tone3 f1 d1 f2 d2 f3 d3 h s).halted = false →
      EnableMatchesPlaying (tone3 f1 d1 f2 d2 f3 d3 h s)) :=
  nextTone_frame h
    { s with
      tonesStart := s.toneSequence
      tonesIndex := s.toneSequence
      mem := store (store (store (store (store (store s.mem (s.toneSequence + 0) f1)
        (s.toneSequence + 1) d1) (s.toneSequence + 2) f2) (s.toneSequence + 3) d2)
        (s.toneSequence + 4) f3) (s.toneSequence + 5) d3 }

theorem tones_frame (p : Nat) (h : Host) (s : State) :
    (tones p h s).mem = s.mem ∧ (tones p h s).toneSequence = s.toneSequence ∧
    (tones p h s).forceHighVol = s.forceHighVol ∧
    (tones p h s).forceNormVol = s.forceNormVol ∧
    ((tones p h s).halted = false → EnableMatchesPlaying (tones p h s)) :=
  nextTone_frame h { s with tonesStart := p, tonesIndex := p }

/-- In every reachable state: the last slot of the inline buffer holds END,
the two override flags are not both set, a held channel is enabled exactly
when the sequencer is playing, and the run has not stopped. -/
theorem reachable_invariants (s : State) (hr : Reachable s) :
    s.mem (s.toneSequence + 6) = TONES_END ∧
    ¬ (s.forceNormVol = true ∧ s.forceHighVol = true) ∧
    EnableMatchesPlaying s ∧
    s.halted = false := by
  induction hr with
  | construct s0 hi =>
    obtain ⟨-, h2, h3, h4, -, h6⟩ := hi
    refine ⟨?_, ?_, ?_, h6⟩
    · show store s0.mem (s0.toneSequence + MAX_TONES * 2) TONES_END (s0.toneSequence + 6) = _
      have hM : MAX_TONES * 2 = 6 := rfl
      rw [hM, store_same]
      rfl
    · show ¬ (s0.forceNormVol = true ∧ s0.forceHighVol = true)
      rw [h2, h3]
      simp
    · intro c hc
      have hc' : s0.gb_channel = some c := hc
      rw [h4] at hc'
      cases hc'
  | byTone f d h s0 _ hrun ih =>
    obtain ⟨i1, i2, -, -⟩ := ih
    obtain ⟨a, b, c, d, e⟩ := tone_frame f d h s0
    refine ⟨?_, ?_, e hrun, hrun⟩
    · rw [a, b, store_other _ _ _ _ (by omega), store_other _ _ _ _ (by omega),
        store_other _ _ _ _ (by omega)]
      exact i1
    · rw [c, d]
      exact i2
  | byTone2 f1 d1 f2 d2 h s0 _ hrun ih =>
    obtain ⟨i1, i2, -, -⟩ := ih
    obtain ⟨a, b, c, d, e⟩ := tone2_frame f1 d1 f2 d2 h s0
    refine ⟨?_, ?_, e hrun, hrun⟩
    · rw [a, b, store_other _ _ _ _ (by omega), store_other _ _ _ _ (by omega),
        store_other _ _ _ _ (by omega), store_other _ _ _ _ (by omega),
        store_other _ _ _ _ (by omega)]
      exact i1
    · rw [c, d]
      exact i2
  | byTone3 f1 d1 f2 d2 f3 d3 h s0 _ hrun ih =>
    obtain ⟨i1, i2, -, -⟩ := ih
    obtain ⟨a, b, c, d, e⟩ := tone3_frame f1 d1 f2 d2 f3 d3 h s0
    refine ⟨?_, ?_, e hrun, hrun⟩
    · rw [a, b, store_other _ _ _ _ (by omega), store_other _ _ _ _ (by omega),
        store_other _ _ _ _ (by omega), store_other _ _ _ _ (by omega),
        store_other _ _ _ _ (by omega), store_other _ _ _ _ (by omega)]
      exact i1
    · rw [c, d]
      exact i2
  | byTones p h s0 _ hrun ih =>
    obtain ⟨i1, i2, -, -⟩ := ih
    obtain ⟨a, b, c, d, e⟩ := tones_frame p h s0
    refine ⟨?_, ?_, e hrun, hrun⟩
    · rw [a, b]
      exact i1
    · rw [c, d]
      exact i2
  | byTonesInRAM p h s0 _ hrun ih =>
    obtain ⟨i1, i2, -, -⟩ := ih
    obtain ⟨a, b, c, d, e⟩ := tones_frame p h s0
    refine ⟨?_, ?_, e hrun, hrun⟩
    · show (tones p h s0).mem ((tones p h s0).toneSequence + 6) = _
      rw [a, b]
      exact i1
    · show ¬ ((tones p h s0).forceNormVol = true ∧ (tones p h s0).forceHighVol = true)
      rw [c, d]
      exact i2
  | byNoTone s0 _ ih =>
    obtain ⟨i1, i2, -, i4⟩ := ih
    obtain ⟨a, b, c, d, e⟩ := noTone_frame s0
    refine ⟨?_, ?_, noTone_enable_matches s0, e.trans i4⟩
    · rw [a, b]
      exact i1
    · rw [c, d]
      exact i2
  | byVolumeMode m s0 _ ih =>
    obtain ⟨i1, -, i3, i4⟩ := ih
    obtain ⟨e1, -, -, e4, e5, e6, -⟩ := volumeMode_frame m s0
    obtain ⟨g1, g2⟩ := volumeMode_flags m s0
    refine ⟨?_, ?_, ?_, (volumeMode_halted m s0).trans i4⟩
    · rw [e1, e4]
      exact i1
    · rw [g1, g2]
      by_cases hm : m % 256 = VOLUME_ALWAYS_NORMAL <;> simp [hm]
    · intro c hc
      rw [e5] at hc
      rw [e6]
      exact i3 c hc
  | byTick h s0 _ hrun ih =>
    obtain ⟨i1, i2, i3, -⟩ := ih
    obtain ⟨a, b, c, d, e⟩ := gb_updateTones_frame h s0
    refine ⟨?_, ?_, e hrun i3, hrun⟩
    · rw [a, b]
      exact i1
    · rw [c, d]
      exact i2
  | byDestroy s0 _ ih =>
    obtain ⟨i1, i2, -, i4⟩ := ih
    refine ⟨i1, i2, ?_, i4⟩
    intro c hc
    cases hc

/-- The words the one-tone overload leaves in the inline buffer. -/
theorem tone_words (f d : Nat) (m : Nat → Nat) (b : Nat) :
    SeqAt (store (store (store m (b + 0) f) (b + 1) d) (b + 2) TONES_END) b
      [f % 65536, d % 65536, TONES_END] := by
  refine ⟨?_, ?_, ?_, trivial⟩
  · rw [store_other _ _ _ _ (by omega), store_other _ _ _ _ (by omega)]
    simp only [Nat.add_zero, store_same]
  · rw [store_other _ _ _ _ (by omega), store_same]
  · exact store_same _ _ _

/-- The words the three-tone overload leaves in the inline buffer when the
last slot already holds END. -/
theorem tone3_words (f1 d1 f2 d2 f3 d3 : Nat) (m : Nat → Nat) (b : Nat)
    (hend : m (b + 6) = TONES_END) :
    SeqAt (store (store (store (store (store (store m (b + 0) f1) (b + 1) d1) (b + 2) f2)
        (b + 3) d2) (b + 4) f3) (b + 5) d3) b
      [f1 % 65536, d1 % 65536, f2 % 65536, d2 % 65536, f3 % 65536, d3 % 65536,
        TONES_END] := by
  refine ⟨?_, ?_, ?_, ?_, ?_, ?_, ?_, trivial⟩
  · rw [store_other _ _ _ _ (by omega), store_other _ _ _ _ (by omega),
      store_other _ _ _ _ (by omega), store_other _ _ _ _ (by omega),
      store_other _ _ _ _ (by omega)]
    simp only [Nat.add_zero, store_same]
  · rw [store_other _ _ _ _ (by omega), store_other _ _ _ _ (by omega),
      store_other _ _ _ _ (by omega), store_other _ _ _ _ (by omega), store_same]
  · rw [store_other _ _ _ _ (by omega), store_other _ _ _ _ (by omega),
      store_other _ _ _ _ (by omega)]
    exact store_same _ _ _
  · rw [store_other _ _ _ _ (by omega), store_other _ _ _ _ (by omega)]
    exact store_same _ _ _
  · rw [store_other _ _ _ _ (by omega)]
    exact store_same _ _ _
  · exact store_same _ _ _
  · rw [store_other _ _ _ _ (by omega), store_other _ _ _ _ (by omega),
      store_other _ _ _ _ (by omega), store_other _ _ _ _ (by omega),
      store_other _ _ _ _ (by omega), store_other _ _ _ _ (by omega)]
    exact hend

/-- C13: in every reachable state slot `MAX_TONES * 2` of the inline buffer
holds END; and from every reachable state each of the three `tone`
overloads, with any arguments, calls `nextTone` in a state whose cursor and
sequence start are the inline buffer and whose buffer holds the given pairs
(as 16-bit words) from slot 0 on, followed at once by END, in slot 2, 4 or 6;
the three-tone overload finds its END in slot 6 without writing it. -/
theorem inline_buffer_end_terminated (s : State) (hr : Reachable s) :
    s.mem (s.toneSequence + MAX_TONES * 2) = TONES_END ∧
    (∀ (f d : Nat) (h : Host), ∃ pre, tone f d h s = nextTone h pre ∧
      pre.tonesStart = s.toneSequence ∧ pre.tonesIndex = s.toneSequence ∧
      SeqAt pre.mem s.toneSequence [f % 65536, d % 65536, TONES_END]) ∧
    (∀ (f1 d1 f2 d2 : Nat) (h : Host), ∃ pre, tone2 f1 d1 f2 d2 h s = nextTone h pre ∧
      pre.tonesStart = s.toneSequence ∧ pre.tonesIndex = s.toneSequence ∧
      SeqAt pre.mem s.toneSequence
        [f1 % 65536, d1 % 65536, f2 % 65536, d2 % 65536, TONES_END]) ∧
    (∀ (f1 d1 f2 d2 f3 d3 : Nat) (h : Host), ∃ pre,
      tone3 f1 d1 f2 d2 f3 d3 h s = nextTone h pre ∧
      pre.tonesStart = s.toneSequence ∧ pre.tonesIndex = s.toneSequence ∧
      SeqAt pre.mem s.toneSequence
        [f1 % 65536, d1 % 65536, f2 % 65536, d2 % 65536, f3 % 65536, d3 % 65536,
          TONES_END]) := by
  obtain ⟨hend, -, -⟩ := reachable_invariants s hr
  refine ⟨hend, ?_, ?_, ?_⟩
  · intro f d h
    exact ⟨_, rfl, rfl, rfl, tone_words f d s.mem s.toneSequence⟩
  · intro f1 d1 f2 d2 h
    exact ⟨_, rfl, rfl, rfl, tone2_words f1 d1 f2 d2 s.mem s.toneSequence⟩
  · intro f1 d1 f2 d2 f3 d3 h
    exact ⟨_, rfl, rfl, rfl, tone3_words f1 d1 f2 d2 f3 d3 s.mem s.toneSequence hend⟩

/-- The freshly constructed sequencer is reachable. -/
theorem fresh_reachable : Reachable fresh :=
  Reachable.construct (startup 0) ⟨rfl, rfl, rfl, rfl, rfl, rfl⟩

/-- C13, at a concrete input: after `tone(1, 2, 3, 4, 5, 6)` and then
`tone(440, 10)` on the fresh sequencer, slot 6 still holds END. -/
theorem inline_buffer_end_terminated_witness :
    (tone 440 10 hostReady (tone3 1 2 3 4 5 6 hostReady fresh)).mem
      ((tone 440 10 hostReady (tone3 1 2 3 4 5 6 hostReady fresh)).toneSequence
        + MAX_TONES * 2) = TONES_END :=
  (inline_buffer_end_terminated (tone 440 10 hostReady (tone3 1 2 3 4 5 6 hostReady fresh))
    (Reachable.byTone 440 10 hostReady _
      (Reachable.byTone3 1 2 3 4 5 6 hostReady _ fresh_reachable (by decide))
      (by decide))).1

/-- C19: in every reachable state, a held channel's enable flag equals the
playing flag, so `playing()` is true exactly when the held channel is
enabled. -/
theorem reachable_enable_equals_playing (s : State) (hr : Reachable s) :
    ∀ c, s.gb_channel = some c →
      c.use = playing s ∧ (playing s = true ↔ c.use = true) := by
  obtain ⟨-, -, hinv, -⟩ := reachable_invariants s hr
  intro c hc
  have e : c.use = s.tonesPlaying := hinv c hc
  refine ⟨e, ?_⟩
  unfold playing
  rw [e]

/-- C19, at a concrete input: `tone(440, 10)`, a tick of 10 units that reads
END, then `volumeMode 2`; the channel is still held, disabled, and
`playing()` is false. -/
theorem reachable_enable_equals_playing_witness :
    idleChannel.use = false ∧
    ∀ c, (volumeMode 2 (gb_updateTones (frame 10)
        (tone 440 10 hostReady fresh))).gb_channel = some c →
      c.use = playing (volumeMode 2 (gb_updateTones (frame 10)
        (tone 440 10 hostReady fresh))) ∧
      (playing (volumeMode 2 (gb_updateTones (frame 10)
        (tone 440 10 hostReady fresh))) = true ↔ c.use = true) :=
  ⟨rfl, reachable_enable_equals_playing _
    (Reachable.byVolumeMode 2 _
      (Reachable.byTick (frame 10) _
        (Reachable.byTone 440 10 hostReady _ fresh_reachable (by decide)) (by decide)))⟩

/-- C20: in every reachable state the two override flags are not both true,
so they stand for one of the three volume modes, and the test of the code,
`(bit set or forceHighVol) and not forceNormVol`, which is what an advance
stores in `toneHighVol`, gives the volume that the rule of the spec gives for
that mode. -/
theorem reachable_overrides_exclusive (s : State) (hr : Reachable s) :
    ¬ (s.forceNormVol = true ∧ s.forceHighVol = true) ∧
    ∃ mode, modeOf s = some mode ∧
      ∀ f, ((hasHighVolume f || s.forceHighVol) && !s.forceNormVol)
          = volumeBySpec mode (hasHighVolume f) ∧
        ∀ h, (programTone h f s).toneHighVol = volumeBySpec mode (hasHighVolume f) := by
  obtain ⟨-, hex, -⟩ := reachable_invariants s hr
  refine ⟨hex, ?_⟩
  have key : ∃ mode, modeOf s = some mode ∧
      ∀ f, ((hasHighVolume f || s.forceHighVol) && !s.forceNormVol)
          = volumeBySpec mode (hasHighVolume f) := by
    cases hn : s.forceNormVol <;> cases hh : s.forceHighVol
    · exact ⟨VolumeMode.toneControlled, by simp [modeOf, hn, hh], fun f => by
        simp [volumeBySpec]⟩
    · exact ⟨VolumeMode.forceHigh, by simp [modeOf, hn, hh], fun f => by
        simp [volumeBySpec]⟩
    · exact ⟨VolumeMode.forceNormal, by simp [modeOf, hn, hh], fun f => by
        simp [volumeBySpec]⟩
    · exact absurd ⟨hn, hh⟩ hex
  obtain ⟨mode, hm, hk⟩ := key
  refine ⟨mode, hm, fun f => ⟨hk f, fun h => ?_⟩⟩
  rw [(programTone_keeps h f s).2.2.2.2.2.2.1]
  unfold highVolOf
  exact hk f

/-- C20, at a concrete input: `volumeMode 1`, `volumeMode 2`, then
`tone(440, 10)` on the fresh sequencer; the flags stand for force-high. -/
theorem reachable_overrides_exclusive_witness :
    modeOf (tone 440 10 hostReady (volumeMode 2 (volumeMode 1 fresh)))
      = some VolumeMode.forceHigh ∧
    ¬ ((tone 440 10 hostReady (volumeMode 2 (volumeMode 1 fresh))).forceNormVol = true ∧
      (tone 440 10 hostReady (volumeMode 2 (volumeMode 1 fresh))).forceHighVol = true) :=
  ⟨by decide,
    (reachable_overrides_exclusive (tone 440 10 hostReady (volumeMode 2 (volumeMode 1 fresh)))
      (Reachable.byTone 440 10 hostReady _
        (Reachable.byVolumeMode 2 _ (Reachable.byVolumeMode 1 _ fresh_reachable))
        (by decide))).1⟩

end ArduboyTones
